import Mathlib

/-!
Verification development for the turn/grid simulation core of a small
turn-based tactics game (grid.ts, unit.ts, world.ts, ai-controller.ts).

Modelling conventions:
* TypeScript numbers that only ever hold integers are modelled as `Int`
  (coordinates, stats) or `Nat` (array indices, grid dimensions).
* A JavaScript array of cells is a `List`; reading a slot outside the
  array yields `undefined` in JavaScript, modelled as `Option.none`.
* Object identity is modelled by indices: a unit is a `Nat` index into
  the unit store `World.units`, a cell is its linear index
  `x + y * width` into the cell array, exactly as the `Grid` class
  stores cells.
* Presentation-only effects (sprites, camera, UI tile highlighting,
  message boxes) are either dropped or recorded in a notification log;
  they never feed back into the simulation state in the source either.
-/

namespace Ludum

/-- Faction tag of a unit (enum Control in unit.ts). -/
inductive Control where
  | friendly
  | hostile
  | neutral
deriving DecidableEq

/-- The Statistics class of unit.ts: hit points and action points with
their maxima. In the source the maxima are constructor parameters and
the current values start at the maxima. -/
structure Stats where
  maxHitPoints : Int
  maxActionPoints : Int
  hitPoints : Int
  actionPoints : Int
deriving DecidableEq

/-- Statistics constructor: both current values start at their maxima. -/
def Stats.create (mhp map2 : Int) : Stats :=
  { maxHitPoints := mhp, maxActionPoints := map2, hitPoints := mhp, actionPoints := map2 }

/-- Statistics.useActionPoints: subtract, commit only when the result is
nonnegative, and report success. -/
def Stats.useActionPoints (s : Stats) (amount : Int) : Stats × Bool :=
  let newActionPoints := s.actionPoints - amount
  if 0 ≤ newActionPoints then ({ s with actionPoints := newActionPoints }, true)
  else (s, false)

/-- Statistics.useHitPoints: subtract, clamp the stored value at 0 with
Math.max, and return whether the unclamped difference is exactly 0. -/
def Stats.useHitPoints (s : Stats) (amount : Int) : Stats × Bool :=
  let newHitPoints := s.hitPoints - amount
  ({ s with hitPoints := max newHitPoints 0 }, newHitPoints == 0)

/-- Statistics.healBy: add and clamp at maxHitPoints. -/
def Stats.healBy (s : Stats) (amount : Int) : Stats :=
  { s with hitPoints := min s.maxHitPoints (s.hitPoints + amount) }

/-- Statistics.healFull. -/
def Stats.healFull (s : Stats) : Stats :=
  { s with hitPoints := s.maxHitPoints }

/-- Statistics.restoreBy: add and clamp at maxActionPoints. -/
def Stats.restoreBy (s : Stats) (amount : Int) : Stats :=
  { s with actionPoints := min s.maxActionPoints (s.actionPoints + amount) }

/-- Statistics.restoreFull. -/
def Stats.restoreFull (s : Stats) : Stats :=
  { s with actionPoints := s.maxActionPoints }

/-- One unit of the PhysicalUnit hierarchy. `visible` is the isVisible
override (false for a bare PhysicalUnit, true for DisplayUnit and
Character); `isCharacter` selects the Character overrides of
moveImmediate and newTurn; `cell` is the linear index of the cell the
unit currently references; `stats` is only meaningful when
`isCharacter` is true (a bare PhysicalUnit has no Statistics). -/
structure UnitData where
  control : Control
  visible : Bool
  isCharacter : Bool
  cell : Nat
  stats : Stats
deriving DecidableEq

instance : Inhabited UnitData :=
  ⟨{ control := Control.neutral, visible := false, isCharacter := false,
     cell := 0, stats := Stats.create 0 0 }⟩

/-- enum UnitActionType of unit.ts. -/
inductive ActionType where
  | move
  | attack
deriving DecidableEq

/-- The UnitAction class: an action type, a grid position, and an
optional target unit (null for moves). -/
structure UnitAction where
  type : ActionType
  pos : Int × Int
  targetUnit : Option Nat
deriving DecidableEq

/-- Kind of a grid event loaded from map data (grid-event-type). The
source switches on the strings speak and win with a no-op default. -/
inductive GridEventKind where
  | speak
  | win
  | other
deriving DecidableEq

/-- IGridEvent: a scripted trigger bound to a coordinate. -/
structure GridEvent where
  x : Int
  y : Int
  kind : GridEventKind
  text : String
deriving DecidableEq

/-- A presentation notification emitted by the core (speak message box,
win message with the survivor count). -/
inductive Notice where
  | speak (text : String)
  | winMsg (numAlive : Nat)
deriving DecidableEq

/-- The whole mutable state reachable from the World class: the grid
(dimensions, static per-cell collides data, per-cell occupancy lists in
insertion order), the unit store, both rosters, the current selection,
the cached legal-action list, the loaded grid events and the log of
emitted notifications. -/
structure World where
  width : Nat
  height : Nat
  collides : List Bool
  occ : List (List Nat)
  units : List UnitData
  players : List Nat
  zombies : List Nat
  selectedPlayerId : Nat
  playerActions : List UnitAction
  gridEvents : List GridEvent
  messages : List Notice
deriving DecidableEq

/-- Unit store lookup. Real code dereferences an object, so out-of-range
indices never arise there; the default is inert (a dead neutral marker). -/
def World.unit (w : World) (u : Nat) : UnitData :=
  w.units.getD u default

/-- The x coordinate a cell was constructed with: cells are stored at
linear index x + y * width with 0 ≤ x < width. -/
def World.cellX (w : World) (c : Nat) : Int :=
  (c % w.width : Nat)

/-- The y coordinate a cell was constructed with. -/
def World.cellY (w : World) (c : Nat) : Int :=
  (c / w.width : Nat)

/-- PhysicalUnit.x: the x coordinate of the referenced cell. -/
def World.unitX (w : World) (u : Nat) : Int :=
  w.cellX (w.unit u).cell

/-- PhysicalUnit.y. -/
def World.unitY (w : World) (u : Nat) : Int :=
  w.cellY (w.unit u).cell

/-- Grid.isOnGrid: x ≥ 0 && y ≥ 0 && x ≤ width - 1 && y ≤ height - 1. -/
def World.isOnGrid (w : World) (x y : Int) : Bool :=
  0 ≤ x && 0 ≤ y && x ≤ (w.width : Int) - 1 && y ≤ (w.height : Int) - 1

/-- Grid.get: unchecked array read cells[x + y * width]. A slot outside
[0, width * height) is undefined in JavaScript, here none. Note that an
off-grid coordinate pair can still land inside the array (for example
x = -1, y = 1 reads the cell at (width - 1, 0)): the linear index is not
bounds-checked per coordinate. -/
def World.gridGet (w : World) (x y : Int) : Option Nat :=
  let idx := x + y * (w.width : Int)
  if 0 ≤ idx ∧ idx < ((w.width * w.height : Nat) : Int) then some idx.toNat else none

/-- The occupancy list (mUnits) of a cell, in insertion order. -/
def World.cellUnits (w : World) (c : Nat) : List Nat :=
  w.occ.getD c []

/-- Static terrain of a cell (the captured collides closure). -/
def World.cellCollides (w : World) (c : Nat) : Bool :=
  w.collides.getD c true

/-- Cell.addUnit: push the unit unless it is already present. -/
def addUnitList (l : List Nat) (u : Nat) : List Nat :=
  if u ∈ l then l else l ++ [u]

/-- Mutate one occupancy slot through Cell.addUnit. -/
def World.addUnit (w : World) (c u : Nat) : World :=
  { w with occ := w.occ.set c (addUnitList (w.cellUnits c) u) }

/-- Cell.removeUnit: splice out the first occurrence (indexOf + splice). -/
def World.removeUnit (w : World) (c u : Nat) : World :=
  { w with occ := w.occ.set c ((w.cellUnits c).erase u) }

/-- PhysicalUnit.preventsMovement: equal to isVisible. -/
def UnitData.preventsMovement (d : UnitData) : Bool :=
  d.visible

/-- Cell.isPathable: not collides and no resident unit prevents movement. -/
def World.cellIsPathable (w : World) (c : Nat) : Bool :=
  !w.cellCollides c && !(w.cellUnits c).any (fun u => (w.unit u).preventsMovement)

/-- Grid.isPathable: false off grid, else the isPathable of the cell. -/
def World.isPathable (w : World) (x y : Int) : Bool :=
  if w.isOnGrid x y then w.cellIsPathable (x + y * (w.width : Int)).toNat else false

/-- The filter predicate of Cell.getAttackableUnits: a Neutral unit can
neither attack nor be attacked, otherwise the controls must differ. -/
def World.attackPred (w : World) (attacker target : Nat) : Bool :=
  if (w.unit attacker).control = Control.neutral ∨ (w.unit target).control = Control.neutral
  then false
  else (w.unit attacker).control ≠ (w.unit target).control

/-- Cell.getAttackableUnits: filter of the occupancy list. -/
def World.getAttackableUnits (w : World) (c attacker : Nat) : List Nat :=
  (w.cellUnits c).filter (fun t => w.attackPred attacker t)

/-- Grid.getAttackbleUnit (name kept from the source): null off grid,
else the element at index 0 of the filtered list when it is nonempty. -/
def World.getAttackbleUnit (w : World) (attacker : Nat) (x y : Int) : Option Nat :=
  if w.isOnGrid x y then
    let attackableUnits := w.getAttackableUnits (x + y * (w.width : Int)).toNat attacker
    if attackableUnits.length ≠ 0 then attackableUnits.head? else none
  else none

/-- Offsets -fill..fill in loop order of Cell.adjacentCells: the outer
loop variable i is added to x, the inner j to y. -/
def offsetRange (fill : Nat) : List Int :=
  (List.range (2 * fill + 1)).map (fun k => (k : Int) - (fill : Int))

/-- The filter r !== null of Cell.adjacentCells keeps every entry:
Grid.get evaluates to a Cell or to undefined, never to null, and
undefined !== null holds in JavaScript. -/
def jsNotNull (_ : Option Nat) : Bool :=
  true

/-- Cell.adjacentCells: for each offset pair push the unchecked
Grid.get result, then filter out null (which removes nothing). Entries
are therefore raw array reads: possibly undefined (none), possibly a
cell whose coordinates are not within the square (aliasing through the
unchecked linear index). -/
def World.adjacentCells (w : World) (c : Nat) (fill : Nat) : List (Option Nat) :=
  ((offsetRange fill).flatMap (fun i =>
    (offsetRange fill).map (fun j => w.gridGet (w.cellX c + i) (w.cellY c + j)))).filter
    jsNotNull

/-- Cell.pathableCells: adjacent cells filtered by isPathable. A none
entry would throw in JavaScript when isPathable dereferences it; here the
filter simply cannot accept it (recorded for completeness, unused by the
claims). -/
def World.pathableCells (w : World) (c : Nat) (fill : Nat) : List Nat :=
  (w.adjacentCells c fill).filterMap id |>.filter (fun c2 => w.cellIsPathable c2)

/-- Replace one slot of the unit store. -/
def World.setUnit (w : World) (u : Nat) (d : UnitData) : World :=
  { w with units := w.units.set u d }

/-- PhysicalUnit.moveImmediate: remove from the old cell, retarget the
cell reference, add to the new cell. -/
def World.physMoveImmediate (w : World) (u : Nat) (newCell : Nat) : World :=
  let old := (w.unit u).cell
  let w1 := w.removeUnit old u
  let w2 := w1.setUnit u { w1.unit u with cell := newCell }
  w2.addUnit newCell u

/-- Character.moveImmediate: rotate the sprite (presentation, dropped),
spend one action point ignoring the success flag, then the PhysicalUnit
move. -/
def World.charMoveImmediate (w : World) (u : Nat) (newCell : Nat) : World :=
  let w1 := w.setUnit u { w.unit u with stats := ((w.unit u).stats.useActionPoints 1).fst }
  w1.physMoveImmediate u newCell

/-- Dynamic dispatch of moveImmediate on the unit class. -/
def World.moveImmediate (w : World) (u : Nat) (newCell : Nat) : World :=
  if (w.unit u).isCharacter then w.charMoveImmediate u newCell
  else w.physMoveImmediate u newCell

/-- PhysicalUnit.moveTo: moveImmediate plus an already-resolved promise. -/
def World.moveTo (w : World) (u : Nat) (newCell : Nat) : World :=
  w.moveImmediate u newCell

/-- Character.attack: spend one attacker action point ignoring the
flag, then one target hit point ignoring the flag. -/
def World.attack (w : World) (a t : Nat) : World :=
  let w1 := w.setUnit a { w.unit a with stats := ((w.unit a).stats.useActionPoints 1).fst }
  w1.setUnit t { w1.unit t with stats := ((w1.unit t).stats.useHitPoints 1).fst }

/-- newTurn dispatch: Character.newTurn restores action points to full;
DisplayUnit and PhysicalUnit newTurn are no-ops. -/
def World.newTurn (w : World) (u : Nat) : World :=
  if (w.unit u).isCharacter then
    w.setUnit u { w.unit u with stats := (w.unit u).stats.restoreFull }
  else w

/-- Character.isDead: hitPoints === 0. -/
def World.isDead (w : World) (u : Nat) : Bool :=
  (w.unit u).stats.hitPoints == 0

/-- World.xyInBounds: note the off-by-one, x and y are compared with ≤
against width and height (not width - 1). It is only used as a
pre-filter in getUnitActions, where the stricter checks inside
getAttackbleUnit and isPathable mask the slack. -/
def World.xyInBounds (w : World) (x y : Int) : Bool :=
  0 ≤ x && x ≤ (w.width : Int) && 0 ≤ y && y ≤ (w.height : Int)

/-- The nine offset pairs of the double loop in World.getUnitActions, in
loop order: i (added to x) is the outer variable, j (added to y) the
inner one. -/
def neighborOffsets : List (Int × Int) :=
  [(-1, -1), (-1, 0), (-1, 1), (0, -1), (0, 0), (0, 1), (1, -1), (1, 0), (1, 1)]

/-- The loop body of World.getUnitActions for one offset pair: inside
bounds only; skip the own cell; an attackable unit yields an Attack
action and short-circuits; else a pathable cell yields a Move action. -/
def World.unitActionAt (w : World) (u : Nat) (ij : Int × Int) : Option UnitAction :=
  if w.xyInBounds (w.unitX u + ij.fst) (w.unitY u + ij.snd) then
    if w.unitX u = w.unitX u + ij.fst ∧ w.unitY u = w.unitY u + ij.snd then none
    else
      match w.getAttackbleUnit u (w.unitX u + ij.fst) (w.unitY u + ij.snd) with
      | some t =>
          some { type := ActionType.attack,
                 pos := (w.unitX u + ij.fst, w.unitY u + ij.snd), targetUnit := some t }
      | none =>
          if w.isPathable (w.unitX u + ij.fst) (w.unitY u + ij.snd) then
            some { type := ActionType.move,
                   pos := (w.unitX u + ij.fst, w.unitY u + ij.snd), targetUnit := none }
          else none
  else none

/-- World.getUnitActions: a Character with no action points left gets
the empty list; otherwise scan the radius-1 box in loop order. -/
def World.getUnitActions (w : World) (u : Nat) : List UnitAction :=
  if (w.unit u).isCharacter ∧ (w.unit u).stats.actionPoints ≤ 0 then []
  else neighborOffsets.filterMap (fun ij => w.unitActionAt u ij)

/-- World.getSelectedPlayer: players[selectedPlayerId]. -/
def World.getSelectedPlayer (w : World) : Nat :=
  w.players.getD w.selectedPlayerId 0

/-- updatePlayerActions on an already reselected world state. -/
def selectBody (w1 : World) (id : Nat) : World :=
  { w1 with playerActions := w1.getUnitActions (w1.players.getD id 0) }

/-- World.selectPlayer: store the id, redraw highlighting (presentation,
dropped) and recompute playerActions for the newly selected unit
(updatePlayerActions). -/
def World.selectPlayer (w : World) (id : Nat) : World :=
  selectBody { w with selectedPlayerId := id } id

/-- Fire every grid event matching the current position of the player
character pc: speak pushes its text, win counts the friendly units with
positive hit points and pushes the end-state message, anything else is
ignored. -/
def World.fireGridEvents (w : World) (pc : Nat) : World :=
  w.gridEvents.foldl
    (fun acc ge =>
      if ge.x = acc.unitX pc ∧ ge.y = acc.unitY pc then
        match ge.kind with
        | GridEventKind.speak => { acc with messages := acc.messages ++ [Notice.speak ge.text] }
        | GridEventKind.win =>
            let numAlive := (acc.players.filter (fun p => 0 < (acc.unit p).stats.hitPoints)).length
            { acc with messages := acc.messages ++ [Notice.winMsg numAlive] }
        | GridEventKind.other => acc
      else acc)
    w

/-- One action execution from the click handler. The Move branch reads
the clicked cell with the unchecked Grid.get (an absent cell would throw
in JavaScript; positions of generated actions are always on grid, so the
none arm is unreachable through handleClick), moves the selected player,
fires matching grid events against the new position, and reselects. The
Attack branch casts targetUnit to Character (null would throw; generated
Attack actions always carry a target), attacks and reselects. -/
def World.execAction (w : World) (gx gy : Int) (a : UnitAction) : World :=
  match a.type with
  | ActionType.move =>
      match w.gridGet gx gy with
      | some cell =>
          let pc := w.getSelectedPlayer
          let w1 := w.moveTo pc cell
          let w2 := w1.fireGridEvents pc
          w2.selectPlayer w2.selectedPlayerId
      | none => w
  | ActionType.attack =>
      match a.targetUnit with
      | some t =>
          let pc := w.getSelectedPlayer
          let w1 := w.attack pc t
          w1.selectPlayer w1.selectedPlayerId
      | none => w

/-- World.handleClick: first scan the friendly roster and select every
unit sitting on the clicked coordinates (selection wins over acting);
otherwise execute every cached action whose position matchedIds the click.
The matching action list is captured before execution, exactly like the
filter(...).forEach(...) chain in the source. -/
def World.handleClick (w : World) (gx gy : Int) : World :=
  let matchedIds := (List.range w.players.length).filter
    (fun id => gx = w.unitX (w.players.getD id 0) ∧ gy = w.unitY (w.players.getD id 0))
  if matchedIds ≠ [] then
    matchedIds.foldl (fun acc id => acc.selectPlayer id) w
  else
    (w.playerActions.filter (fun a => gx = a.pos.fst ∧ gy = a.pos.snd)).foldl
      (fun acc a => acc.execAction gx gy a) w

/-- World.killFriendly: splice the character out of the friendly roster
(UI bookkeeping dropped). Never called by the simulation paths. -/
def World.killFriendly (w : World) (u : Nat) : World :=
  { w with players := w.players.eraseIdx ((w.players.indexOf u : Nat)) }

/-- jsSplice l i: splice(i, 1) where i may be the JavaScript indexOf
result -1; splice(-1, 1) removes the last element. -/
def jsSplice (l : List Nat) (i : Int) : List Nat :=
  if i < 0 then l.dropLast else l.eraseIdx i.toNat

/-- World.killHostile: the source splices this.zombies at the index
this.players.indexOf(character) — the index is computed against the
wrong roster, so for a hostile character it is -1 and splice(-1, 1)
deletes the last zombie instead. Never called by the simulation paths. -/
def World.killHostile (w : World) (u : Nat) : World :=
  let i : Int := if u ∈ w.players then (w.players.indexOf u : Nat) else -1
  { w with zombies := jsSplice w.zombies i }

/-- World.newTurn loop of endTurn: newTurn on every unit of both
rosters, players first. -/
def World.newTurnAll (w : World) : World :=
  (w.players ++ w.zombies).foldl (fun acc u => acc.newTurn u) w

/-- AIController.rangeOfVisibility. -/
def rangeOfVisibility : Nat := 5

/-- Number.MAX_SAFE_INTEGER, the seed of the minimum search in
AIController.closest. -/
def maxSafeInteger : Int := 9007199254740991

/-- What one iteration of the AI action loop did. -/
inductive AIEvent where
  | attackEv
  | moveEv
  | wanderEv
deriving DecidableEq

/-- AIController.closest: first-wins argmin of Euclidean distance over
the iterable. The source compares square roots as doubles; here the
squared distances are compared exactly, and the MAX_SAFE_INTEGER seed is
squared accordingly (for integer coordinates sqrt is strictly monotone,
so the strict comparisons agree). -/
def closest (w : World) (toPos : Int × Int) (humans : List Nat) : Option Nat :=
  (humans.foldl
    (fun acc h =>
      if (w.unitX h - toPos.fst) ^ 2 + (w.unitY h - toPos.snd) ^ 2 < acc.snd
      then (some h, (w.unitX h - toPos.fst) ^ 2 + (w.unitY h - toPos.snd) ^ 2)
      else acc)
    ((none : Option Nat), maxSafeInteger * maxSafeInteger)).fst

/-- AIController.inMeleeRange: both coordinate distances at most 1. -/
def inMeleeRange (w : World) (z h : Nat) : Bool :=
  (w.unitX z - w.unitX h).natAbs ≤ 1 && (w.unitY z - w.unitY h).natAbs ≤ 1

/-- The body of AIController.doMoveTowards after the action-point
spend: step each axis by at most one tile toward the target, and moveTo
the cell from the unchecked Grid.get. A missing cell (undefined) makes
moveImmediate throw in JavaScript, modelled as none. -/
def dmtAux (w1 : World) (z h : Nat) : Option World :=
  match w1.gridGet
      (w1.unitX z +
        (if w1.unitX h > w1.unitX z then 1 else if w1.unitX h < w1.unitX z then -1 else 0))
      (w1.unitY z +
        (if w1.unitY h > w1.unitY z then 1 else if w1.unitY h < w1.unitY z then -1 else 0)) with
  | some cell => some (w1.moveTo z cell)
  | none => none

/-- AIController.doMoveTowards: spend one action point (ignoring the
flag), then step toward the target. Note that moveTo dispatches to
Character.moveImmediate, which spends a second action point. -/
def doMoveTowards (w : World) (z h : Nat) : Option World :=
  dmtAux (w.setUnit z { w.unit z with stats := ((w.unit z).stats.useActionPoints 1).fst }) z h

/-- Modelled from the spec: World.performAttack, called by
AIController.doAttack, is not defined by any World revision in the
repository. Spec 4.5 prescribes an attack "via the same attack
primitive used by the player path, spending one action point", which is
Character.attack. -/
def performAttack (w : World) (z h : Nat) : World :=
  w.attack z h

/-- AIController.doAction: attack the closest visible friendly when in
melee range, else step toward it, else wander (spend one action point
and do nothing). Also reports which branch ran. -/
def doAction (w : World) (z : Nat) (nearby : List Nat) : Option (World × AIEvent) :=
  match closest w (w.unitX z, w.unitY z) nearby with
  | some c =>
      if inMeleeRange w z c then some (performAttack w z c, AIEvent.attackEv)
      else (doMoveTowards w z c).map (fun w1 => (w1, AIEvent.moveEv))
  | none =>
      some (w.setUnit z { w.unit z with stats := ((w.unit z).stats.useActionPoints 1).fst },
            AIEvent.wanderEv)

/-- Fuel-bounded unfolding of the while loop of AIController.doActions:
the loop runs while actionPoints is truthy (nonzero). Exhausting the
fuel with action points still nonzero yields none; the fuel chosen in
doActions suffices whenever the action points are nonnegative (each
iteration strictly decreases them), so none then only reports a run the
real loop would not complete either. -/
def doActionsAux : Nat → World → Nat → List Nat → Option (World × List AIEvent)
  | fuel, w, z, nearby =>
    if (w.unit z).stats.actionPoints = 0 then some (w, [])
    else
      match fuel with
      | 0 => none
      | Nat.succ f =>
          (doAction w z nearby).bind (fun p =>
            (doActionsAux f p.fst z nearby).map (fun q => (q.fst, p.snd :: q.snd)))

/-- AIController.doActions, with the action-point budget as fuel. -/
def doActions (w : World) (z : Nat) (nearby : List Nat) : Option (World × List AIEvent) :=
  doActionsAux (w.unit z).stats.actionPoints.toNat w z nearby

/-- The visibility scan of AIController.doTurn for one zombie: read the
zombie cell with the unchecked Grid.get, then walk adjacentCells with
radius 5 collecting friendly Characters. Iterating the units of an
undefined entry throws in JavaScript, modelled as none. -/
def collectNearby (w : World) (z : Nat) : Option (List Nat) :=
  (w.gridGet (w.unitX z) (w.unitY z)).bind (fun position =>
    (w.adjacentCells position rangeOfVisibility).foldl
      (fun acc oc =>
        acc.bind (fun l =>
          oc.map (fun c =>
            l ++ (w.cellUnits c).filter
              (fun u => decide ((w.unit u).isCharacter = true ∧
                (w.unit u).control = Control.friendly)))))
      (some []))

/-- The per-zombie body of AIController.doTurn after the restoreFull:
compute the visible friendly units, then run the action loop. -/
def aiZombieBody (w1 : World) (z : Nat) : Option World :=
  (collectNearby w1 z).bind (fun nearby => (doActions w1 z nearby).map Prod.fst)

/-- The per-zombie body of AIController.doTurn: restore action points to
full, compute the visible friendly units, then run the action loop. -/
def aiDoZombie (w : World) (z : Nat) : Option World :=
  aiZombieBody (w.setUnit z { w.unit z with stats := (w.unit z).stats.restoreFull }) z

/-- AIController.doTurn: every hostile unit acts, in roster order. -/
def aiDoTurn (w : World) : Option World :=
  w.zombies.foldlM (fun acc z => aiDoZombie acc z) w

/-- World.endTurn: run the AI turn synchronously, then newTurn on every
unit of both rosters, then reselect the currently selected player id. -/
def World.endTurn (w : World) : Option World :=
  (aiDoTurn w).map (fun w1 =>
    let w2 := w1.newTurnAll
    w2.selectPlayer w2.selectedPlayerId)

/-- The PhysicalUnit constructor: append the unit to the store and add
it to the occupancy of its starting cell (cell.addUnit(this)). -/
def World.spawnUnit (w : World) (d : UnitData) : World :=
  let id := w.units.length
  let w1 := { w with units := w.units ++ [d] }
  w1.addUnit d.cell id

/-- A world as it is before any unit is constructed: the grid cells
exist with their static terrain, every occupancy list is empty. -/
def emptyWorld (width height : Nat) (collides : List Bool) : World :=
  { width := width, height := height, collides := collides,
    occ := List.replicate (width * height) [], units := [],
    players := [], zombies := [], selectedPlayerId := 0,
    playerActions := [], gridEvents := [], messages := [] }

/-- A freshly constructed world: each listed unit is constructed in
order, entering the occupancy set of its starting cell. -/
def mkWorld (width height : Nat) (collides : List Bool) (specs : List UnitData) : World :=
  specs.foldl World.spawnUnit (emptyWorld width height collides)

/-- A sequence of moveImmediate (equivalently moveTo) calls, each given
as (unit id, destination cell index). -/
def World.applyMoves (w : World) (moves : List (Nat × Nat)) : World :=
  moves.foldl (fun acc m => acc.moveImmediate m.fst m.snd) w

/-- The occupancy invariant: every unit of the store references a real
cell, is in the occupancy set of that cell and of no other, and appears
at most once there (so the occupancy lists behave as sets). The x and y
a unit reports are by definition those of its referenced cell. -/
def World.occInv (w : World) : Prop :=
  ∀ u : Nat, u < w.units.length →
    (w.unit u).cell < w.occ.length ∧
    ∀ c : Nat, c < w.occ.length →
      (u ∈ w.cellUnits c ↔ c = (w.unit u).cell) ∧ (w.cellUnits c).count u ≤ 1

/-- Auxiliary boundedness: occupancy lists only hold ids of stored
units (needed so a freshly constructed unit is new to every cell). -/
def World.occBounded (w : World) : Prop :=
  ∀ c : Nat, c < w.occ.length → ∀ v ∈ w.cellUnits c, v < w.units.length

/-- The attackability rule in the words of the spec: the controls
differ and neither is Neutral. -/
def specAttackPred (ac tc : Control) : Bool :=
  decide (ac ≠ Control.neutral ∧ tc ≠ Control.neutral ∧ ac ≠ tc)

/-- The adjacency contract in the words of the spec: all on-grid cells
of the Chebyshev square, off-grid excluded, row-major (y outer, x
inner). -/
def specAdjacentRowMajor (w : World) (cx cy : Int) (r : Nat) : List Nat :=
  (offsetRange r).flatMap (fun j =>
    (offsetRange r).filterMap (fun i =>
      if w.isOnGrid (cx + i) (cy + j) then some ((cx + i) + (cy + j) * (w.width : Int)).toNat
      else none))

/-- The cells of the Chebyshev square in the loop order the source
actually uses (x outer, y inner), as linear indices. -/
def gridSquareColMajor (w : World) (cx cy : Int) (r : Nat) : List Nat :=
  (offsetRange r).flatMap (fun i =>
    (offsetRange r).map (fun j => ((cx + i) + (cy + j) * (w.width : Int)).toNat))

/-- Units of the attack scenario of spec 8: a friendly attacker with 1
action point on (1,1) of a 3 × 3 open grid (cell 4), a hostile target
with 1 hit point on (1,2) (cell 7). -/
def c1Units : List UnitData :=
  [ { control := Control.friendly, visible := true, isCharacter := true,
      cell := 4, stats := Stats.create 5 1 },
    { control := Control.hostile, visible := true, isCharacter := true,
      cell := 7, stats := Stats.create 1 3 } ]

/-- The attack scenario world, after construction: units spawned into
their cells and rosters, starting player selected (which caches the
legal actions of unit 0, among them the Attack on (1,2)). -/
def c1World : World :=
  ({ mkWorld 3 3 (List.replicate 9 false) c1Units with
     players := [0], zombies := [1] }).selectPlayer 0

/-- Units of the AI movement scenario of spec 8: a hostile unit with 3
action points on (0,0) of an 8 × 1 open corridor, a friendly unit on
(4,0). -/
def c3Units : List UnitData :=
  [ { control := Control.hostile, visible := true, isCharacter := true,
      cell := 0, stats := Stats.create 5 3 },
    { control := Control.friendly, visible := true, isCharacter := true,
      cell := 4, stats := Stats.create 5 2 } ]

/-- The AI movement scenario world. -/
def c3World : World :=
  { mkWorld 8 1 (List.replicate 8 false) c3Units with
    players := [1], zombies := [0] }

/-- An empty 2 × 2 open grid, the counterexample world for the
adjacency contract. -/
def c4World : World :=
  mkWorld 2 2 (List.replicate 4 false) []

/-- An empty 5 × 5 open grid, used where a radius-1 square fully on the
grid is needed. -/
def c5x5World : World :=
  mkWorld 5 5 (List.replicate 25 false) []

/-- Two characters on a 2 × 2 grid for the occupancy scenario. -/
def c5Specs : List UnitData :=
  [ { control := Control.friendly, visible := true, isCharacter := true,
      cell := 0, stats := Stats.create 3 3 },
    { control := Control.hostile, visible := true, isCharacter := true,
      cell := 3, stats := Stats.create 3 3 } ]

/-- A 3 × 3 world holding one friendly character and no hostiles, used
as an end-turn scenario. -/
def c8World : World :=
  { mkWorld 3 3 (List.replicate 9 false)
      [ { control := Control.friendly, visible := true, isCharacter := true,
          cell := 4, stats := Stats.create 5 2 } ] with
    players := [0], zombies := [] }

/-- A 3 × 3 world where the friendly unit 0 on (1,1) has 0 action
points and the hostile unit 1 on (1,2) has 2 hit points. -/
def c10World : World :=
  { mkWorld 3 3 (List.replicate 9 false)
      [ { control := Control.friendly, visible := true, isCharacter := true,
          cell := 4, stats := Stats.create 5 0 },
        { control := Control.hostile, visible := true, isCharacter := true,
          cell := 7, stats := Stats.create 2 3 } ] with
    players := [0], zombies := [1] }

/-- Nonempty grid with every stored unit referencing a real cell (the
default out-of-range lookup references cell 0, also real). -/
def World.cellsValid (w : World) : Prop :=
  0 < w.width ∧ 0 < w.height ∧ ∀ d ∈ w.units, d.cell < w.width * w.height

/-- The parts of the world state that the AI phase never touches:
selection, both rosters, the number of stored units, the class and the
maximum action points of each unit. -/
def statePres (w w1 : World) : Prop :=
  w1.width = w.width ∧ w1.height = w.height ∧
  w1.selectedPlayerId = w.selectedPlayerId ∧ w1.players = w.players ∧
  w1.zombies = w.zombies ∧ w1.units.length = w.units.length ∧
  ∀ u : Nat, (w1.unit u).isCharacter = (w.unit u).isCharacter ∧
    (w1.unit u).stats.maxActionPoints = (w.unit u).stats.maxActionPoints

/-! ### General lemmas about lists and the world primitives -/

theorem head?_filter_eq_find? {α : Type} (p : α → Bool) (l : List α) :
    (l.filter p).head? = l.find? p := by
  induction l with
  | nil => rfl
  | cons a l ih => cases h : p a <;> simp [List.filter_cons, List.find?_cons, h, ih]

theorem find?_congr_pred {α : Type} {p q : α → Bool} (l : List α)
    (h : ∀ a ∈ l, p a = q a) : l.find? p = l.find? q := by
  induction l with
  | nil => rfl
  | cons a l ih =>
      have ha := h a (List.mem_cons_self a l)
      cases hq : q a <;>
        simp [List.find?_cons, ha, hq, ih (fun b hb => h b (List.mem_cons_of_mem a hb))]

@[simp] theorem setUnit_width (w : World) (u : Nat) (d : UnitData) :
    (w.setUnit u d).width = w.width := rfl

@[simp] theorem setUnit_height (w : World) (u : Nat) (d : UnitData) :
    (w.setUnit u d).height = w.height := rfl

@[simp] theorem setUnit_collides (w : World) (u : Nat) (d : UnitData) :
    (w.setUnit u d).collides = w.collides := rfl

@[simp] theorem setUnit_occ (w : World) (u : Nat) (d : UnitData) :
    (w.setUnit u d).occ = w.occ := rfl

@[simp] theorem setUnit_players (w : World) (u : Nat) (d : UnitData) :
    (w.setUnit u d).players = w.players := rfl

@[simp] theorem setUnit_zombies (w : World) (u : Nat) (d : UnitData) :
    (w.setUnit u d).zombies = w.zombies := rfl

@[simp] theorem setUnit_selectedPlayerId (w : World) (u : Nat) (d : UnitData) :
    (w.setUnit u d).selectedPlayerId = w.selectedPlayerId := rfl

@[simp] theorem setUnit_units_length (w : World) (u : Nat) (d : UnitData) :
    (w.setUnit u d).units.length = w.units.length := by
  simp [World.setUnit]

@[simp] theorem addUnit_width (w : World) (c u : Nat) : (w.addUnit c u).width = w.width := rfl

@[simp] theorem addUnit_height (w : World) (c u : Nat) : (w.addUnit c u).height = w.height := rfl

@[simp] theorem addUnit_units (w : World) (c u : Nat) : (w.addUnit c u).units = w.units := rfl

@[simp] theorem addUnit_players (w : World) (c u : Nat) : (w.addUnit c u).players = w.players := rfl

@[simp] theorem addUnit_zombies (w : World) (c u : Nat) : (w.addUnit c u).zombies = w.zombies := rfl

@[simp] theorem addUnit_selectedPlayerId (w : World) (c u : Nat) :
    (w.addUnit c u).selectedPlayerId = w.selectedPlayerId := rfl

@[simp] theorem addUnit_occ_length (w : World) (c u : Nat) :
    (w.addUnit c u).occ.length = w.occ.length := by
  simp [World.addUnit]

@[simp] theorem removeUnit_width (w : World) (c u : Nat) : (w.removeUnit c u).width = w.width := rfl

@[simp] theorem removeUnit_height (w : World) (c u : Nat) :
    (w.removeUnit c u).height = w.height := rfl

@[simp] theorem removeUnit_units (w : World) (c u : Nat) : (w.removeUnit c u).units = w.units := rfl

@[simp] theorem removeUnit_players (w : World) (c u : Nat) :
    (w.removeUnit c u).players = w.players := rfl

@[simp] theorem removeUnit_zombies (w : World) (c u : Nat) :
    (w.removeUnit c u).zombies = w.zombies := rfl

@[simp] theorem removeUnit_selectedPlayerId (w : World) (c u : Nat) :
    (w.removeUnit c u).selectedPlayerId = w.selectedPlayerId := rfl

@[simp] theorem removeUnit_occ_length (w : World) (c u : Nat) :
    (w.removeUnit c u).occ.length = w.occ.length := by
  simp [World.removeUnit]

@[simp] theorem unit_addUnit (w : World) (c u v : Nat) : (w.addUnit c u).unit v = w.unit v := rfl

@[simp] theorem unit_removeUnit (w : World) (c u v : Nat) :
    (w.removeUnit c u).unit v = w.unit v := rfl

theorem unit_setUnit (w : World) (u : Nat) (d : UnitData) (v : Nat) :
    (w.setUnit u d).unit v = if v = u ∧ u < w.units.length then d else w.unit v := by
  by_cases hv : v = u
  · subst hv
    by_cases hu : v < w.units.length
    · simp [World.setUnit, World.unit, List.getD, List.getElem?_set, hu]
    · rw [World.setUnit, List.set_eq_of_length_le (Nat.le_of_not_lt hu)]
      simp [hu, World.unit]
  · have : u ≠ v := fun h => hv h.symm
    simp [World.setUnit, World.unit, List.getD, List.getElem?_set, this, hv]

theorem cellUnits_setUnit (w : World) (u : Nat) (d : UnitData) (c : Nat) :
    (w.setUnit u d).cellUnits c = w.cellUnits c := rfl

theorem cellUnits_addUnit (w : World) (c u c2 : Nat) :
    (w.addUnit c u).cellUnits c2 =
      if c2 = c ∧ c < w.occ.length then addUnitList (w.cellUnits c) u else w.cellUnits c2 := by
  by_cases hc : c2 = c
  · subst hc
    by_cases hl : c2 < w.occ.length
    · simp [World.addUnit, World.cellUnits, List.getD, List.getElem?_set, hl]
    · rw [World.addUnit]
      rw [List.set_eq_of_length_le (Nat.le_of_not_lt hl)]
      simp [hl, World.cellUnits]
  · have : c ≠ c2 := fun h => hc h.symm
    simp [World.addUnit, World.cellUnits, List.getD, List.getElem?_set, this, hc]

theorem cellUnits_removeUnit (w : World) (c u c2 : Nat) :
    (w.removeUnit c u).cellUnits c2 =
      if c2 = c ∧ c < w.occ.length then (w.cellUnits c).erase u else w.cellUnits c2 := by
  by_cases hc : c2 = c
  · subst hc
    by_cases hl : c2 < w.occ.length
    · simp [World.removeUnit, World.cellUnits, List.getD, List.getElem?_set, hl]
    · rw [World.removeUnit]
      rw [List.set_eq_of_length_le (Nat.le_of_not_lt hl)]
      simp [hl, World.cellUnits]
  · have : c ≠ c2 := fun h => hc h.symm
    simp [World.removeUnit, World.cellUnits, List.getD, List.getElem?_set, this, hc]

theorem useActionPoints_spec (s : Stats) (n : Int) :
    s.useActionPoints n =
      if 0 ≤ s.actionPoints - n
      then ({ s with actionPoints := s.actionPoints - n }, true)
      else (s, false) := rfl

theorem useHitPoints_spec (s : Stats) (n : Int) :
    s.useHitPoints n =
      ({ s with hitPoints := max (s.hitPoints - n) 0 }, s.hitPoints - n == 0) := rfl

theorem setUnit_same (w : World) (a : Nat) : w.setUnit a (w.unit a) = w := by
  unfold World.setUnit World.unit
  by_cases h : a < w.units.length
  · have h2 : w.units.set a (w.units.getD a default) = w.units := by
      apply List.ext_getElem?
      intro i
      rw [List.getElem?_set]
      by_cases hi : a = i
      · subst hi
        simp [h, List.getD, List.getElem?_eq_getElem h]
      · simp [hi]
    rw [h2]
  · rw [List.set_eq_of_length_le (Nat.le_of_not_lt h)]

/-! ### C2: useActionPoints and useHitPoints -/

/-- C2 counterexample: with 1 hit point, useHitPoints(2) clamps the
stored hit points to 0 yet returns false, refuting that the return
value is true exactly when the resulting hit points are 0 (including
underflow). -/
theorem C2_counterexample :
    ¬ (∀ (s : Stats) (n : Int), 0 < n →
        (((s.useHitPoints n).snd = true) ↔ (s.useHitPoints n).fst.hitPoints = 0)) := by
  intro hcl
  have h := (hcl (Stats.create 1 9) 2 (by norm_num)).mpr (by decide)
  exact absurd h (by decide)

/-- C2 (amended): for every positive n, useActionPoints never drives
actionPoints below 0 and on shortfall returns false leaving the whole
value unchanged; useHitPoints clamps the stored hit points at 0 but
returns true exactly when the unclamped difference hitPoints − n is 0
(so an underflow yields 0 hit points with return value false). -/
theorem C2_use_points (s : Stats) (n : Int) (hn : 0 < n) :
    (0 ≤ s.actionPoints → 0 ≤ (s.useActionPoints n).fst.actionPoints) ∧
    (s.actionPoints < n →
      (s.useActionPoints n).snd = false ∧ (s.useActionPoints n).fst = s) ∧
    0 ≤ (s.useHitPoints n).fst.hitPoints ∧
    ((s.useHitPoints n).snd = true ↔ s.hitPoints = n) := by
  rw [useActionPoints_spec, useHitPoints_spec]
  refine ⟨?_, ?_, ?_, ?_⟩
  · intro h
    by_cases hc : 0 ≤ s.actionPoints - n
    · rw [if_pos hc]
      exact hc
    · rw [if_neg hc]
      exact h
  · intro h
    have hc : ¬ 0 ≤ s.actionPoints - n := by omega
    rw [if_neg hc]
    exact ⟨rfl, rfl⟩
  · exact le_max_right _ _
  · simp only [beq_iff_eq]
    omega

/-- Witness for C2_use_points at a concrete Statistics value and n = 2. -/
theorem C2_use_points_witness :
    (0 : Int) < 2 ∧
    ((0 ≤ (Stats.create 3 5).actionPoints →
        0 ≤ ((Stats.create 3 5).useActionPoints 2).fst.actionPoints) ∧
      ((Stats.create 3 5).actionPoints < 2 →
        ((Stats.create 3 5).useActionPoints 2).snd = false ∧
          ((Stats.create 3 5).useActionPoints 2).fst = Stats.create 3 5) ∧
      0 ≤ ((Stats.create 3 5).useHitPoints 2).fst.hitPoints ∧
      (((Stats.create 3 5).useHitPoints 2).snd = true ↔ (Stats.create 3 5).hitPoints = 2)) :=
  ⟨by norm_num, C2_use_points (Stats.create 3 5) 2 (by norm_num)⟩

/-! ### C10: attack with an exhausted attacker -/

/-- C10: Character.attack discards the boolean failure of the attacker
action-point spend: invoked with 0 attacker action points it still
takes one hit point from a living target while the attacker stays at 0
action points. -/
theorem C10_attack_ignores_ap_failure (w : World) (a t : Nat)
    (hap : (w.unit a).stats.actionPoints = 0)
    (hhp : 0 < (w.unit t).stats.hitPoints) :
    ((w.attack a t).unit a).stats.actionPoints = 0 ∧
    ((w.attack a t).unit t).stats.hitPoints = (w.unit t).stats.hitPoints - 1 := by
  have ht : t < w.units.length := by
    by_contra hlen
    have hd : w.unit t = default := by
      simp [World.unit, List.getD, List.getElem?_eq_none (Nat.le_of_not_lt hlen)]
    rw [hd] at hhp
    exact absurd hhp (by decide)
  have huse : ((w.unit a).stats.useActionPoints 1).fst = (w.unit a).stats := by
    rw [useActionPoints_spec]
    have hc : ¬ 0 ≤ (w.unit a).stats.actionPoints - 1 := by omega
    rw [if_neg hc]
  have hfirst :
      w.setUnit a { w.unit a with stats := ((w.unit a).stats.useActionPoints 1).fst } = w := by
    rw [huse]
    exact setUnit_same w a
  unfold World.attack
  rw [hfirst]
  constructor
  · rw [unit_setUnit]
    by_cases hta : a = t
    · subst hta
      rw [if_pos ⟨rfl, ht⟩]
      rw [useHitPoints_spec]
      exact hap
    · rw [if_neg (fun h => hta h.left)]
      exact hap
  · rw [unit_setUnit, if_pos ⟨rfl, ht⟩]
    rw [useHitPoints_spec]
    show max ((w.unit t).stats.hitPoints - 1) 0 = (w.unit t).stats.hitPoints - 1
    omega

/-- Witness for C10 on a 3 × 3 world: the attacker on (1,1) with 0
action points, a hostile target on (1,2) with 2 hit points. -/
theorem C10_attack_witness :
    (c10World.unit 0).stats.actionPoints = 0 ∧
    0 < (c10World.unit 1).stats.hitPoints ∧
    (((c10World.attack 0 1).unit 0).stats.actionPoints = 0 ∧
      ((c10World.attack 0 1).unit 1).stats.hitPoints = (c10World.unit 1).stats.hitPoints - 1) :=
  ⟨by decide, by decide, C10_attack_ignores_ap_failure c10World 0 1 (by decide) (by decide)⟩

/-! ### C1: click-attack against a 1-hit-point target -/

/-- C1: the attack scenario of spec 8 evaluated on the click handler.
The attack on (1,2) brings the attacker to 0 action points and the
target to 0 hit points (dead), but the dead target is NOT removed: it
is still in the occupancy list of its cell 7 = (1,2) and still in the
hostile roster. The attack branch of handleClick performs no death
check, and killHostile is called from nowhere. -/
theorem C1_dead_target_not_removed :
    ((c1World.handleClick 1 2).unit 0).stats.actionPoints = 0 ∧
    ((c1World.handleClick 1 2).unit 1).stats.hitPoints = 0 ∧
    (c1World.handleClick 1 2).isDead 1 = true ∧
    1 ∈ (c1World.handleClick 1 2).cellUnits 7 ∧
    1 ∈ (c1World.handleClick 1 2).zombies := by
  decide

/-! ### C3: the AI movement scenario -/

/-- C3 counterexample: on the scenario (hostile at (0,0) with 3 action
points, single visible friendly at (4,0)) the action loop does NOT
perform three move steps ending at (3,0). -/
theorem C3_counterexample :
    (doActions c3World 0 [1]).map
        (fun p => (p.snd, World.unitX p.fst 0, World.unitY p.fst 0)) ≠
      some ([AIEvent.moveEv, AIEvent.moveEv, AIEvent.moveEv], 3, 0) := by
  decide

/-- C3 (amended): the loop performs exactly two move-toward steps and
no attack, leaving the hostile unit at (2,0) (Chebyshev distance 2 from
the target, still at (4,0)) with 0 action points: each move-toward step
costs two action points, one spent by doMoveTowards and a second by
Character.moveImmediate inside moveTo. -/
theorem C3_ai_two_move_steps :
    (doActions c3World 0 [1]).map
        (fun p => (p.snd, World.unitX p.fst 0, World.unitY p.fst 0,
          (World.unit p.fst 0).stats.actionPoints, World.unitX p.fst 1, World.unitY p.fst 1)) =
      some ([AIEvent.moveEv, AIEvent.moveEv], 2, 0, 0, 4, 0) := by
  decide

/-! ### C4: adjacentCells -/

/-- An on-grid coordinate pair reads exactly the cell stored at its
linear index. -/
theorem gridGet_isOnGrid (w : World) (x y : Int) (h : w.isOnGrid x y = true) :
    w.gridGet x y = some (x + y * (w.width : Int)).toNat := by
  unfold World.isOnGrid at h
  simp only [Bool.and_eq_true, decide_eq_true_eq] at h
  obtain ⟨⟨⟨hx0, hy0⟩, hxw⟩, hyh⟩ := h
  have hW : (0 : Int) ≤ (w.width : Int) := Int.natCast_nonneg _
  have h1 : 0 ≤ x + y * (w.width : Int) := add_nonneg hx0 (mul_nonneg hy0 hW)
  have h2 : y * (w.width : Int) ≤ ((w.height : Int) - 1) * (w.width : Int) :=
    mul_le_mul_of_nonneg_right hyh hW
  have h4 : x + y * (w.width : Int) < ((w.width * w.height : Nat) : Int) := by
    push_cast
    nlinarith
  simp only [World.gridGet]
  rw [if_pos ⟨h1, h4⟩]

/-- C4 counterexample: on a 2 × 2 grid, the radius-1 neighborhood of
the cell (0,0) is not the list of on-grid cells of the square in
row-major order: the actual result keeps undefined entries for off-grid
reads and an aliased duplicate of cell (1,0) (read through the
unchecked linear index of the off-grid coordinates (-1,1)). -/
theorem C4_counterexample :
    c4World.adjacentCells 0 1 ≠ (specAdjacentRowMajor c4World 0 0 1).map some := by
  decide

/-- C4 (amended): when the whole square of radius r around the cell lies
on the grid, adjacentCells returns exactly the cells of the Chebyshev
square (off-grid exclusion is then vacuous), but in column-major order
(x outer, y inner), not row-major: as lists it equals the column-major
enumeration, and as a set it coincides with the row-major contract. -/
theorem C4_adjacent_all_on_grid (w : World) (c r : Nat)
    (h : ∀ i ∈ offsetRange r, ∀ j ∈ offsetRange r,
        w.isOnGrid (w.cellX c + i) (w.cellY c + j) = true) :
    w.adjacentCells c r = (gridSquareColMajor w (w.cellX c) (w.cellY c) r).map some ∧
    ∀ c2 : Nat, (some c2 ∈ w.adjacentCells c r ↔
      c2 ∈ specAdjacentRowMajor w (w.cellX c) (w.cellY c) r) := by
  have key : ∀ i ∈ offsetRange r, ∀ j ∈ offsetRange r,
      w.gridGet (w.cellX c + i) (w.cellY c + j) =
        some ((w.cellX c + i) + (w.cellY c + j) * (w.width : Int)).toNat :=
    fun i hi j hj => gridGet_isOnGrid w _ _ (h i hi j hj)
  have hfilter : w.adjacentCells c r =
      (offsetRange r).flatMap (fun i =>
        (offsetRange r).map (fun j => w.gridGet (w.cellX c + i) (w.cellY c + j))) := by
    unfold World.adjacentCells
    exact List.filter_eq_self.mpr (fun a _ => rfl)
  constructor
  · rw [hfilter]
    unfold gridSquareColMajor
    rw [List.map_flatMap]
    refine List.flatMap_congr (fun i hi => ?_)
    rw [List.map_map]
    refine List.map_congr_left (fun j hj => ?_)
    exact key i hi j hj
  · intro c2
    rw [hfilter]
    unfold specAdjacentRowMajor
    constructor
    · intro hm
      rw [List.mem_flatMap] at hm
      obtain ⟨i, hi, hm⟩ := hm
      rw [List.mem_map] at hm
      obtain ⟨j, hj, hm⟩ := hm
      rw [key i hi j hj] at hm
      rw [List.mem_flatMap]
      refine ⟨j, hj, ?_⟩
      rw [List.mem_filterMap]
      refine ⟨i, hi, ?_⟩
      rw [if_pos (h i hi j hj)]
      exact hm
    · intro hm
      rw [List.mem_flatMap] at hm
      obtain ⟨j, hj, hm⟩ := hm
      rw [List.mem_filterMap] at hm
      obtain ⟨i, hi, hm⟩ := hm
      rw [if_pos (h i hi j hj)] at hm
      rw [List.mem_flatMap]
      refine ⟨i, hi, ?_⟩
      rw [List.mem_map]
      refine ⟨j, hj, ?_⟩
      rw [key i hi j hj]
      exact hm

/-- Witness for C4_adjacent_all_on_grid: the cell (2,2) of an empty
5 × 5 grid with radius 1. -/
theorem C4_adjacent_witness :
    (∀ i ∈ offsetRange 1, ∀ j ∈ offsetRange 1,
        c5x5World.isOnGrid (c5x5World.cellX 12 + i) (c5x5World.cellY 12 + j) = true) ∧
    (c5x5World.adjacentCells 12 1 =
        (gridSquareColMajor c5x5World (c5x5World.cellX 12) (c5x5World.cellY 12) 1).map some ∧
      ∀ c2 : Nat, (some c2 ∈ c5x5World.adjacentCells 12 1 ↔
        c2 ∈ specAdjacentRowMajor c5x5World (c5x5World.cellX 12) (c5x5World.cellY 12) 1)) :=
  ⟨by decide, C4_adjacent_all_on_grid c5x5World 12 1 (by decide)⟩

/-! ### C6: getAttackbleUnit -/

/-- The filter of Cell.getAttackableUnits agrees with the spec wording
of attackability. -/
theorem attackPred_eq_spec (w : World) (a t : Nat) :
    w.attackPred a t = specAttackPred (w.unit a).control (w.unit t).control := by
  unfold World.attackPred specAttackPred
  cases (w.unit a).control <;> cases (w.unit t).control <;> simp

/-- C6: Grid.getAttackbleUnit returns none off grid; on the grid it
returns the first unit of the occupancy list (insertion order) that is
attackable in the sense of the spec (controls differ, neither Neutral),
and none when no resident qualifies. -/
theorem C6_getAttackbleUnit_contract (w : World) (a : Nat) (x y : Int) :
    (w.isOnGrid x y = false → w.getAttackbleUnit a x y = none) ∧
    (w.isOnGrid x y = true →
      w.getAttackbleUnit a x y =
        (w.cellUnits (x + y * (w.width : Int)).toNat).find?
          (fun t => specAttackPred (w.unit a).control (w.unit t).control)) := by
  have hL : ∀ (L : List Nat), (if L.length ≠ 0 then L.head? else none) = L.head? := by
    intro L
    cases L <;> simp
  constructor
  · intro h
    unfold World.getAttackbleUnit
    rw [h]
    simp
  · intro h
    unfold World.getAttackbleUnit World.getAttackableUnits
    rw [h]
    simp only [if_true]
    rw [hL, head?_filter_eq_find?]
    exact find?_congr_pred _ (fun t _ => attackPred_eq_spec w a t)

/-! ### C7: getUnitActions -/

theorem xyInBounds_of_isOnGrid (w : World) (x y : Int) (h : w.isOnGrid x y = true) :
    w.xyInBounds x y = true := by
  unfold World.isOnGrid at h
  unfold World.xyInBounds
  simp only [Bool.and_eq_true, decide_eq_true_eq] at h ⊢
  omega

theorem isOnGrid_of_getAttackbleUnit (w : World) (a : Nat) (x y : Int) (t : Nat)
    (h : w.getAttackbleUnit a x y = some t) : w.isOnGrid x y = true := by
  cases hval : w.isOnGrid x y
  · unfold World.getAttackbleUnit at h
    rw [hval] at h
    simp at h
  · rfl

theorem isOnGrid_of_isPathable (w : World) (x y : Int) (h : w.isPathable x y = true) :
    w.isOnGrid x y = true := by
  cases hval : w.isOnGrid x y
  · unfold World.isPathable at h
    rw [hval] at h
    simp at h
  · rfl

theorem unitActionAt_self (w : World) (u : Nat) : w.unitActionAt u (0, 0) = none := by
  unfold World.unitActionAt
  simp

/-- Full characterization of what one loop iteration of getUnitActions
emits for one offset pair. -/
theorem unitActionAt_eq_some (w : World) (u : Nat) (ij : Int × Int) (a : UnitAction) :
    w.unitActionAt u ij = some a ↔
      (ij ≠ (0, 0) ∧
        a.pos = (w.unitX u + ij.fst, w.unitY u + ij.snd) ∧
        ((∃ t, w.getAttackbleUnit u (w.unitX u + ij.fst) (w.unitY u + ij.snd) = some t ∧
            a = { type := ActionType.attack,
                  pos := (w.unitX u + ij.fst, w.unitY u + ij.snd), targetUnit := some t }) ∨
          (w.getAttackbleUnit u (w.unitX u + ij.fst) (w.unitY u + ij.snd) = none ∧
            w.isPathable (w.unitX u + ij.fst) (w.unitY u + ij.snd) = true ∧
            a = { type := ActionType.move,
                  pos := (w.unitX u + ij.fst, w.unitY u + ij.snd), targetUnit := none }))) := by
  by_cases hs : ij = (0, 0)
  · subst hs
    rw [unitActionAt_self]
    simp
  · have hself : ¬ (w.unitX u = w.unitX u + ij.fst ∧ w.unitY u = w.unitY u + ij.snd) := by
      intro hcon
      exact hs (Prod.ext (by omega) (by omega))
    cases hb : w.xyInBounds (w.unitX u + ij.fst) (w.unitY u + ij.snd) with
    | false =>
        constructor
        · intro hl
          unfold World.unitActionAt at hl
          rw [hb] at hl
          simp at hl
        · rintro ⟨-, -, hcase⟩
          rcases hcase with ⟨t, hA, -⟩ | ⟨-, hP, -⟩
          · have hBB := xyInBounds_of_isOnGrid w _ _ (isOnGrid_of_getAttackbleUnit w u _ _ t hA)
            rw [hb] at hBB
            exact Bool.noConfusion hBB
          · have hBB := xyInBounds_of_isOnGrid w _ _ (isOnGrid_of_isPathable w _ _ hP)
            rw [hb] at hBB
            exact Bool.noConfusion hBB
    | true =>
        unfold World.unitActionAt
        rw [hb]
        rw [if_pos (show (true : Bool) = true from rfl)]
        rw [if_neg hself]
        cases hA : w.getAttackbleUnit u (w.unitX u + ij.fst) (w.unitY u + ij.snd) with
        | some t =>
            constructor
            · intro hl
              have ha := (Option.some_inj.mp hl).symm
              exact ⟨hs, by rw [ha], Or.inl ⟨t, rfl, ha⟩⟩
            · rintro ⟨-, -, hcase⟩
              rcases hcase with ⟨t2, hA2, ha⟩ | ⟨hA2, -, -⟩
              · obtain rfl : t2 = t := (Option.some_inj.mp hA2).symm
                rw [ha]
              · exact Option.noConfusion hA2
        | none =>
            cases hP : w.isPathable (w.unitX u + ij.fst) (w.unitY u + ij.snd) with
            | false =>
                rw [if_neg (show ¬ ((false : Bool) = true) from Bool.noConfusion)]
                constructor
                · intro hl
                  exact Option.noConfusion hl
                · rintro ⟨-, -, hcase⟩
                  rcases hcase with ⟨t2, hA2, -⟩ | ⟨-, hP2, -⟩
                  · exact Option.noConfusion hA2
                  · exact Bool.noConfusion hP2
            | true =>
                rw [if_pos (show (true : Bool) = true from rfl)]
                constructor
                · intro hl
                  have ha := (Option.some_inj.mp hl).symm
                  exact ⟨hs, by rw [ha], Or.inr ⟨rfl, rfl, ha⟩⟩
                · rintro ⟨-, -, hcase⟩
                  rcases hcase with ⟨t2, hA2, -⟩ | ⟨-, -, ha⟩
                  · exact Option.noConfusion hA2
                  · rw [ha]

/-- C7: getUnitActions of a Character with 0 action points is empty; in
general the list has at most 8 actions; and an action is in the list
exactly when the action-point gate passes and some non-self offset of
the radius-1 box produces it — an Attack on the attackable unit of that
cell when one exists (attack shadows move), else a Move when the cell
is pathable. On-grid-ness is implied: an attackable unit or a pathable
verdict only arises on the grid. -/
theorem C7_getUnitActions_contract (w : World) (u : Nat) (a : UnitAction) :
    ((w.unit u).isCharacter = true → (w.unit u).stats.actionPoints = 0 →
        w.getUnitActions u = []) ∧
    (w.getUnitActions u).length ≤ 8 ∧
    (a ∈ w.getUnitActions u ↔
      ((w.unit u).isCharacter = true → 0 < (w.unit u).stats.actionPoints) ∧
      ∃ ij ∈ neighborOffsets, ij ≠ (0, 0) ∧
        a.pos = (w.unitX u + ij.fst, w.unitY u + ij.snd) ∧
        ((∃ t, w.getAttackbleUnit u (w.unitX u + ij.fst) (w.unitY u + ij.snd) = some t ∧
            a = { type := ActionType.attack,
                  pos := (w.unitX u + ij.fst, w.unitY u + ij.snd), targetUnit := some t }) ∨
          (w.getAttackbleUnit u (w.unitX u + ij.fst) (w.unitY u + ij.snd) = none ∧
            w.isPathable (w.unitX u + ij.fst) (w.unitY u + ij.snd) = true ∧
            a = { type := ActionType.move,
                  pos := (w.unitX u + ij.fst, w.unitY u + ij.snd), targetUnit := none }))) := by
  refine ⟨?_, ?_, ?_⟩
  · intro hchar hap
    unfold World.getUnitActions
    rw [if_pos ⟨hchar, by omega⟩]
  · unfold World.getUnitActions
    by_cases hg : (w.unit u).isCharacter = true ∧ (w.unit u).stats.actionPoints ≤ 0
    · rw [if_pos hg]
      simp
    · rw [if_neg hg]
      have hsplit : neighborOffsets =
          [((-1 : Int), (-1 : Int)), (-1, 0), (-1, 1), (0, -1)] ++
            ((0 : Int), (0 : Int)) :: [((0 : Int), (1 : Int)), (1, -1), (1, 0), (1, 1)] := rfl
      rw [hsplit, List.filterMap_append, List.filterMap_cons_none (unitActionAt_self w u)]
      rw [List.length_append]
      have h1 := List.length_filterMap_le (fun ij => w.unitActionAt u ij)
        [((-1 : Int), (-1 : Int)), (-1, 0), (-1, 1), (0, -1)]
      have h2 := List.length_filterMap_le (fun ij => w.unitActionAt u ij)
        [((0 : Int), (1 : Int)), (1, -1), (1, 0), (1, 1)]
      have e1 : ([((-1 : Int), (-1 : Int)), (-1, 0), (-1, 1), (0, -1)] : List (Int × Int)).length
          = 4 := rfl
      have e2 : ([((0 : Int), (1 : Int)), (1, -1), (1, 0), (1, 1)] : List (Int × Int)).length
          = 4 := rfl
      have h1b := List.length_filterMap_le (w.unitActionAt u)
        [((-1 : Int), (-1 : Int)), (-1, 0), (-1, 1), (0, -1)]
      have h2b := List.length_filterMap_le (w.unitActionAt u)
        [((0 : Int), (1 : Int)), (1, -1), (1, 0), (1, 1)]
      rw [e1] at h1 h1b
      rw [e2] at h2 h2b
      omega
  · unfold World.getUnitActions
    by_cases hg : (w.unit u).isCharacter = true ∧ (w.unit u).stats.actionPoints ≤ 0
    · rw [if_pos hg]
      constructor
      · intro hmem
        exact absurd hmem (List.not_mem_nil a)
      · rintro ⟨hgate, -⟩
        have := hgate hg.left
        omega
    · rw [if_neg hg]
      have hgate : (w.unit u).isCharacter = true → 0 < (w.unit u).stats.actionPoints := by
        intro hc
        by_contra hle
        exact hg ⟨hc, by omega⟩
      rw [List.mem_filterMap]
      constructor
      · rintro ⟨ij, hij, hsome⟩
        exact ⟨hgate, ij, hij, (unitActionAt_eq_some w u ij a).mp hsome⟩
      · rintro ⟨-, ij, hij, hbig⟩
        exact ⟨ij, hij, (unitActionAt_eq_some w u ij a).mpr hbig⟩

/-! ### C5: the occupancy invariant -/

theorem mem_addUnitList (l : List Nat) (u v : Nat) :
    v ∈ addUnitList l u ↔ v ∈ l ∨ v = u := by
  unfold addUnitList
  by_cases h : u ∈ l
  · rw [if_pos h]
    constructor
    · exact Or.inl
    · rintro (hv | rfl)
      · exact hv
      · exact h
  · rw [if_neg h]
    simp [List.mem_append]

theorem count_addUnitList_self (l : List Nat) (u : Nat) (h : l.count u ≤ 1) :
    (addUnitList l u).count u = 1 := by
  unfold addUnitList
  by_cases hm : u ∈ l
  · rw [if_pos hm]
    have hpos := List.count_pos_iff.mpr hm
    omega
  · rw [if_neg hm, List.count_append, List.count_eq_zero.mpr hm]
    simp

theorem count_addUnitList_ne (l : List Nat) (u v : Nat) (h : v ≠ u) :
    (addUnitList l u).count v = l.count v := by
  unfold addUnitList
  by_cases hm : u ∈ l
  · rw [if_pos hm]
  · rw [if_neg hm, List.count_append]
    have h0 : ([u] : List Nat).count v = 0 := by
      simp [List.count_cons, h]
    rw [h0]
    omega

theorem not_mem_erase_self_of_count_le (l : List Nat) (u : Nat) (h : l.count u ≤ 1) :
    u ∉ l.erase u := by
  rw [← List.count_eq_zero, List.count_erase_self]
  omega

theorem physMove_eq (w : World) (u nc : Nat) :
    w.physMoveImmediate u nc =
      ((w.removeUnit (w.unit u).cell u).setUnit u
        { w.unit u with cell := nc }).addUnit nc u := rfl

theorem charMove_eq (w : World) (u nc : Nat) :
    w.charMoveImmediate u nc =
      (w.setUnit u
        { w.unit u with stats := ((w.unit u).stats.useActionPoints 1).fst }).physMoveImmediate
        u nc := rfl

theorem spawn_eq (w : World) (d : UnitData) :
    w.spawnUnit d = ({ w with units := w.units ++ [d] }).addUnit d.cell w.units.length := rfl

@[simp] theorem physMove_occ_length (w : World) (u nc : Nat) :
    (w.physMoveImmediate u nc).occ.length = w.occ.length := by
  rw [physMove_eq]
  simp [World.addUnit, World.removeUnit]

@[simp] theorem physMove_units_length (w : World) (u nc : Nat) :
    (w.physMoveImmediate u nc).units.length = w.units.length := by
  rw [physMove_eq]
  simp

@[simp] theorem physMove_width (w : World) (u nc : Nat) :
    (w.physMoveImmediate u nc).width = w.width := rfl

@[simp] theorem physMove_height (w : World) (u nc : Nat) :
    (w.physMoveImmediate u nc).height = w.height := rfl

@[simp] theorem physMove_players (w : World) (u nc : Nat) :
    (w.physMoveImmediate u nc).players = w.players := rfl

@[simp] theorem physMove_zombies (w : World) (u nc : Nat) :
    (w.physMoveImmediate u nc).zombies = w.zombies := rfl

@[simp] theorem physMove_selectedPlayerId (w : World) (u nc : Nat) :
    (w.physMoveImmediate u nc).selectedPlayerId = w.selectedPlayerId := rfl

theorem unit_physMove (w : World) (u0 nc : Nat) (hu0 : u0 < w.units.length) (v : Nat) :
    (w.physMoveImmediate u0 nc).unit v =
      if v = u0 then { w.unit u0 with cell := nc } else w.unit v := by
  rw [physMove_eq, unit_addUnit, unit_setUnit]
  rw [removeUnit_units]
  by_cases hv : v = u0
  · subst hv
    rw [if_pos ⟨rfl, hu0⟩, if_pos rfl]
  · rw [if_neg (fun hcon => hv hcon.left), if_neg hv, unit_removeUnit]

theorem cellUnits_physMove (w : World) (u0 nc : Nat)
    (hold : (w.unit u0).cell < w.occ.length) (hnc : nc < w.occ.length) (c2 : Nat) :
    (w.physMoveImmediate u0 nc).cellUnits c2 =
      if c2 = nc then
        addUnitList
          (if nc = (w.unit u0).cell then (w.cellUnits (w.unit u0).cell).erase u0
           else w.cellUnits nc) u0
      else
        if c2 = (w.unit u0).cell then (w.cellUnits (w.unit u0).cell).erase u0
        else w.cellUnits c2 := by
  rw [physMove_eq, cellUnits_addUnit]
  have hlen : ((w.removeUnit (w.unit u0).cell u0).setUnit u0
      { w.unit u0 with cell := nc }).occ.length = w.occ.length := by
    simp [World.removeUnit]
  by_cases hcn : c2 = nc
  · rw [if_pos ⟨hcn, by rw [hlen]; exact hnc⟩, if_pos hcn]
    rw [cellUnits_setUnit, cellUnits_removeUnit]
    by_cases hno : nc = (w.unit u0).cell
    · rw [if_pos ⟨hno, by rw [← hno]; exact hnc⟩, if_pos hno]
    · rw [if_neg (fun hcon => hno hcon.left), if_neg hno]
  · rw [if_neg (fun hcon => hcn hcon.left), if_neg hcn]
    rw [cellUnits_setUnit, cellUnits_removeUnit]
    by_cases hco : c2 = (w.unit u0).cell
    · rw [if_pos ⟨hco, hold⟩, if_pos hco]
    · rw [if_neg (fun hcon => hco hcon.left), if_neg hco]

theorem occInv_physMove (w : World) (u0 nc : Nat) (hinv : w.occInv)
    (hu0 : u0 < w.units.length) (hnc : nc < w.occ.length) :
    (w.physMoveImmediate u0 nc).occInv := by
  obtain ⟨hold, hrow0⟩ := hinv u0 hu0
  intro u2 hu2
  rw [physMove_units_length] at hu2
  have hu2e := unit_physMove w u0 nc hu0 u2
  constructor
  · rw [hu2e]
    by_cases h2 : u2 = u0
    · rw [if_pos h2, physMove_occ_length]
      exact hnc
    · rw [if_neg h2, physMove_occ_length]
      exact (hinv u2 hu2).left
  · intro c hc
    rw [physMove_occ_length] at hc
    rw [cellUnits_physMove w u0 nc hold hnc c, hu2e]
    by_cases h2 : u2 = u0
    · subst h2
      rw [if_pos rfl]
      by_cases hcn : c = nc
      · subst hcn
        rw [if_pos rfl]
        constructor
        · constructor
          · intro _
            rfl
          · intro _
            exact (mem_addUnitList _ _ _).mpr (Or.inr rfl)
        · apply Nat.le_of_eq
          apply count_addUnitList_self
          by_cases hno : c = (w.unit u2).cell
          · rw [if_pos hno, List.count_erase_self]
            have := (hrow0 (w.unit u2).cell hold).right
            omega
          · rw [if_neg hno]
            have hnm : u2 ∉ w.cellUnits c := by
              intro hmem
              exact hno (((hrow0 c hc).left).mp hmem)
            rw [List.count_eq_zero.mpr hnm]
            omega
      · rw [if_neg hcn]
        have hne : ¬ c = ({ w.unit u2 with cell := nc } : UnitData).cell := hcn
        by_cases hco : c = (w.unit u2).cell
        · rw [if_pos hco]
          constructor
          · constructor
            · intro hmem
              exact absurd hmem
                (not_mem_erase_self_of_count_le _ _ ((hrow0 (w.unit u2).cell hold).right))
            · intro hcon
              exact absurd hcon hne
          · rw [List.count_erase_self]
            have hcount := (hrow0 (w.unit u2).cell hold).right
            omega
        · rw [if_neg hco]
          constructor
          · constructor
            · intro hmem
              exact absurd ((hrow0 c hc).left.mp hmem) hco
            · intro hcon
              exact absurd hcon hne
          · exact (hrow0 c hc).right
    · rw [if_neg h2]
      obtain ⟨holdc2, hrow2⟩ := hinv u2 hu2
      by_cases hcn : c = nc
      · subst hcn
        rw [if_pos rfl]
        have hbase : u2 ∈ (if c = (w.unit u0).cell
            then (w.cellUnits (w.unit u0).cell).erase u0 else w.cellUnits c) ↔
            c = (w.unit u2).cell := by
          by_cases hno : c = (w.unit u0).cell
          · rw [if_pos hno, ← hno, List.mem_erase_of_ne h2]
            exact (hrow2 c hc).left
          · rw [if_neg hno]
            exact (hrow2 c hc).left
        constructor
        · rw [mem_addUnitList]
          constructor
          · rintro (hm | hcon)
            · exact hbase.mp hm
            · exact absurd hcon h2
          · intro hcon
            exact Or.inl (hbase.mpr hcon)
        · rw [count_addUnitList_ne _ _ _ h2]
          by_cases hno : c = (w.unit u0).cell
          · rw [if_pos hno, ← hno, List.count_erase_of_ne h2]
            exact (hrow2 c hc).right
          · rw [if_neg hno]
            exact (hrow2 c hc).right
      · rw [if_neg hcn]
        by_cases hco : c = (w.unit u0).cell
        · rw [if_pos hco, ← hco, List.mem_erase_of_ne h2, List.count_erase_of_ne h2]
          exact hrow2 c hc
        · rw [if_neg hco]
          exact hrow2 c hc

theorem occBounded_physMove (w : World) (u0 nc : Nat) (hb : w.occBounded)
    (hu0 : u0 < w.units.length) (hold : (w.unit u0).cell < w.occ.length)
    (hnc : nc < w.occ.length) :
    (w.physMoveImmediate u0 nc).occBounded := by
  intro c hc v hv
  rw [physMove_occ_length] at hc
  rw [physMove_units_length]
  rw [cellUnits_physMove w u0 nc hold hnc c] at hv
  by_cases hcn : c = nc
  · rw [if_pos hcn] at hv
    rcases (mem_addUnitList _ _ _).mp hv with hvb | rfl
    · by_cases hno : nc = (w.unit u0).cell
      · rw [if_pos hno] at hvb
        exact hb _ hold v (List.mem_of_mem_erase hvb)
      · rw [if_neg hno] at hvb
        exact hb nc hnc v hvb
    · exact hu0
  · rw [if_neg hcn] at hv
    by_cases hco : c = (w.unit u0).cell
    · rw [if_pos hco] at hv
      exact hb _ hold v (List.mem_of_mem_erase hv)
    · rw [if_neg hco] at hv
      exact hb c hc v hv

theorem occInv_setUnit (w : World) (u : Nat) (d : UnitData)
    (hcell : d.cell = (w.unit u).cell) (hinv : w.occInv) : (w.setUnit u d).occInv := by
  intro u2 hu2
  rw [setUnit_units_length] at hu2
  have hcell2 : ((w.setUnit u d).unit u2).cell = (w.unit u2).cell := by
    rw [unit_setUnit]
    by_cases hc : u2 = u ∧ u < w.units.length
    · rw [if_pos hc, hcell, hc.left]
    · rw [if_neg hc]
  obtain ⟨h1, h2⟩ := hinv u2 hu2
  refine ⟨?_, ?_⟩
  · rw [hcell2, setUnit_occ]
    exact h1
  · intro c hc
    rw [setUnit_occ] at hc
    rw [cellUnits_setUnit, hcell2]
    exact h2 c hc

theorem occBounded_setUnit (w : World) (u : Nat) (d : UnitData) (hb : w.occBounded) :
    (w.setUnit u d).occBounded := by
  intro c hc v hv
  rw [setUnit_occ] at hc
  rw [cellUnits_setUnit] at hv
  rw [setUnit_units_length]
  exact hb c hc v hv

theorem occInv_moveImmediate (w : World) (u0 nc : Nat) (hinv : w.occInv) (hb : w.occBounded)
    (hu0 : u0 < w.units.length) (hnc : nc < w.occ.length) :
    (w.moveImmediate u0 nc).occInv ∧ (w.moveImmediate u0 nc).occBounded := by
  unfold World.moveImmediate
  by_cases hch : (w.unit u0).isCharacter = true
  · rw [if_pos hch, charMove_eq]
    have hcellpres : ({ w.unit u0 with
        stats := ((w.unit u0).stats.useActionPoints 1).fst } : UnitData).cell
        = (w.unit u0).cell := rfl
    have hinv2 := occInv_setUnit w u0 _ hcellpres hinv
    have hb2 := occBounded_setUnit w u0
      { w.unit u0 with stats := ((w.unit u0).stats.useActionPoints 1).fst } hb
    refine ⟨occInv_physMove _ u0 nc hinv2 (by rw [setUnit_units_length]; exact hu0)
        (by rw [setUnit_occ]; exact hnc), ?_⟩
    apply occBounded_physMove _ u0 nc hb2 (by rw [setUnit_units_length]; exact hu0)
      ?_ (by rw [setUnit_occ]; exact hnc)
    rw [setUnit_occ]
    exact (hinv2 u0 (by rw [setUnit_units_length]; exact hu0)).left |>.trans_eq
      (by rw [setUnit_occ])
  · rw [if_neg hch]
    exact ⟨occInv_physMove w u0 nc hinv hu0 hnc,
      occBounded_physMove w u0 nc hb hu0 (hinv u0 hu0).left hnc⟩

theorem unit_append_one (l : List UnitData) (d : UnitData) (v : Nat) :
    (l ++ [d]).getD v default = if v = l.length then d else l.getD v default := by
  by_cases hv : v = l.length
  · subst hv
    simp [List.getD, List.getElem?_append_right (Nat.le_refl _)]
  · rw [if_neg hv]
    by_cases hlt : v < l.length
    · simp [List.getD, List.getElem?_append_left hlt]
    · have h1 : (l ++ [d]).length ≤ v := by
        simp only [List.length_append, List.length_cons, List.length_nil]
        omega
      have h2 : l.length ≤ v := by omega
      simp only [List.getD, List.get?_eq_getElem?]
      rw [List.getElem?_eq_none h1, List.getElem?_eq_none h2]

theorem unit_spawn (w : World) (d : UnitData) (v : Nat) :
    (w.spawnUnit d).unit v = if v = w.units.length then d else w.unit v := by
  rw [spawn_eq, unit_addUnit]
  show (w.units ++ [d]).getD v default = _
  rw [unit_append_one]
  rfl

theorem cellUnits_spawn (w : World) (d : UnitData) (c2 : Nat) :
    (w.spawnUnit d).cellUnits c2 =
      if c2 = d.cell ∧ d.cell < w.occ.length
      then addUnitList (w.cellUnits d.cell) w.units.length
      else w.cellUnits c2 := by
  rw [spawn_eq, cellUnits_addUnit]
  rfl

@[simp] theorem spawn_units_length (w : World) (d : UnitData) :
    (w.spawnUnit d).units.length = w.units.length + 1 := by
  rw [spawn_eq]
  simp

@[simp] theorem spawn_occ_length (w : World) (d : UnitData) :
    (w.spawnUnit d).occ.length = w.occ.length := by
  rw [spawn_eq]
  simp [World.addUnit]

theorem occInv_spawn (w : World) (d : UnitData) (hinv : w.occInv) (hb : w.occBounded)
    (hcell : d.cell < w.occ.length) : (w.spawnUnit d).occInv := by
  have hfresh : ∀ c, c < w.occ.length → w.units.length ∉ w.cellUnits c := by
    intro c hc hmem
    exact absurd (hb c hc _ hmem) (lt_irrefl _)
  intro u2 hu2
  rw [spawn_units_length] at hu2
  have hu2e := unit_spawn w d u2
  constructor
  · rw [hu2e, spawn_occ_length]
    by_cases h2 : u2 = w.units.length
    · rw [if_pos h2]
      exact hcell
    · rw [if_neg h2]
      exact (hinv u2 (by omega)).left
  · intro c hc
    rw [spawn_occ_length] at hc
    rw [cellUnits_spawn, hu2e]
    by_cases h2 : u2 = w.units.length
    · subst h2
      rw [if_pos rfl]
      by_cases hcd : c = d.cell
      · rw [if_pos ⟨hcd, hcell⟩]
        constructor
        · constructor
          · intro _
            exact hcd
          · intro _
            exact (mem_addUnitList _ _ _).mpr (Or.inr rfl)
        · apply Nat.le_of_eq
          apply count_addUnitList_self
          rw [List.count_eq_zero.mpr (hfresh d.cell hcell)]
          omega
      · rw [if_neg (fun hcon => hcd hcon.left)]
        constructor
        · constructor
          · intro hmem
            exact absurd hmem (hfresh c hc)
          · intro hcon
            exact absurd hcon hcd
        · rw [List.count_eq_zero.mpr (hfresh c hc)]
          omega
    · rw [if_neg h2]
      have hu2lt : u2 < w.units.length := by omega
      obtain ⟨-, hrow2⟩ := hinv u2 hu2lt
      by_cases hcd : c = d.cell
      · rw [if_pos ⟨hcd, hcell⟩, ← hcd]
        constructor
        · rw [mem_addUnitList]
          constructor
          · rintro (hm | hcon)
            · exact (hrow2 c hc).left.mp hm
            · exact absurd hcon h2
          · intro hcon
            exact Or.inl ((hrow2 c hc).left.mpr hcon)
        · rw [count_addUnitList_ne _ _ _ h2]
          exact (hrow2 c hc).right
      · rw [if_neg (fun hcon => hcd hcon.left)]
        exact hrow2 c hc

theorem occBounded_spawn (w : World) (d : UnitData) (hb : w.occBounded) :
    (w.spawnUnit d).occBounded := by
  intro c hc v hv
  rw [spawn_occ_length] at hc
  rw [spawn_units_length]
  rw [cellUnits_spawn] at hv
  by_cases hcd : c = d.cell ∧ d.cell < w.occ.length
  · rw [if_pos hcd] at hv
    rcases (mem_addUnitList _ _ _).mp hv with hvb | rfl
    · have := hb d.cell hcd.right v hvb
      omega
    · omega
  · rw [if_neg hcd] at hv
    have := hb c hc v hv
    omega

theorem cellUnits_emptyWorld (width height : Nat) (collides : List Bool) (c : Nat) :
    (emptyWorld width height collides).cellUnits c = [] := by
  simp only [emptyWorld, World.cellUnits, List.getD, List.get?_eq_getElem?]
  by_cases h : c < width * height
  · rw [List.getElem?_replicate]
    simp [h]
  · rw [List.getElem?_eq_none
      (by rw [List.length_replicate]; exact Nat.le_of_not_lt h)]
    rfl

theorem occInv_emptyWorld (width height : Nat) (collides : List Bool) :
    (emptyWorld width height collides).occInv := by
  intro u hu
  exact absurd hu (by simp [emptyWorld])

theorem occBounded_emptyWorld (width height : Nat) (collides : List Bool) :
    (emptyWorld width height collides).occBounded := by
  intro c hc v hv
  rw [cellUnits_emptyWorld] at hv
  exact absurd hv (List.not_mem_nil v)

theorem occWf_foldl_spawn (specs : List UnitData) :
    ∀ (w : World), w.occInv → w.occBounded → (∀ d ∈ specs, d.cell < w.occ.length) →
    (specs.foldl World.spawnUnit w).occInv ∧ (specs.foldl World.spawnUnit w).occBounded ∧
    (specs.foldl World.spawnUnit w).occ.length = w.occ.length ∧
    (specs.foldl World.spawnUnit w).units.length = w.units.length + specs.length := by
  induction specs with
  | nil =>
      intro w h1 h2 _
      exact ⟨h1, h2, rfl, by simp⟩
  | cons d specs ih =>
      intro w h1 h2 h3
      have hd := h3 d (List.mem_cons_self d specs)
      have hrec := ih (w.spawnUnit d) (occInv_spawn w d h1 h2 hd) (occBounded_spawn w d h2)
        (fun d2 hd2 => by
          rw [spawn_occ_length]
          exact h3 d2 (List.mem_cons_of_mem d hd2))
      rw [List.foldl_cons]
      refine ⟨hrec.1, hrec.2.1, ?_, ?_⟩
      · rw [hrec.2.2.1, spawn_occ_length]
      · rw [hrec.2.2.2, spawn_units_length]
        simp
        omega

theorem moveImmediate_occ_length (w : World) (u nc : Nat) :
    (w.moveImmediate u nc).occ.length = w.occ.length := by
  unfold World.moveImmediate
  by_cases h : (w.unit u).isCharacter = true
  · rw [if_pos h, charMove_eq, physMove_occ_length, setUnit_occ]
  · rw [if_neg h, physMove_occ_length]

theorem moveImmediate_units_length (w : World) (u nc : Nat) :
    (w.moveImmediate u nc).units.length = w.units.length := by
  unfold World.moveImmediate
  by_cases h : (w.unit u).isCharacter = true
  · rw [if_pos h, charMove_eq, physMove_units_length, setUnit_units_length]
  · rw [if_neg h, physMove_units_length]

theorem occInv_applyMoves (moves : List (Nat × Nat)) :
    ∀ (w : World), w.occInv → w.occBounded →
    (∀ m ∈ moves, m.fst < w.units.length ∧ m.snd < w.occ.length) →
    (w.applyMoves moves).occInv := by
  induction moves with
  | nil =>
      intro w h1 _ _
      exact h1
  | cons m moves ih =>
      intro w h1 h2 h3
      have hm := h3 m (List.mem_cons_self m moves)
      have hstep := occInv_moveImmediate w m.fst m.snd h1 h2 hm.left hm.right
      unfold World.applyMoves
      rw [List.foldl_cons]
      exact ih (w.moveImmediate m.fst m.snd) hstep.1 hstep.2
        (fun m2 hm2 => by
          rw [moveImmediate_units_length, moveImmediate_occ_length]
          exact h3 m2 (List.mem_cons_of_mem m hm2))

/-- C5: in a freshly constructed world, after any sequence of
moveImmediate or moveTo calls (moveTo IS moveImmediate plus an
already-resolved promise), every stored unit appears in the occupancy
set of exactly one cell — the cell it references, whose coordinates are
what the unit reports as its x and y — and appears there only once. -/
theorem C5_occupancy_invariant (width height : Nat) (collides : List Bool)
    (specs : List UnitData) (moves : List (Nat × Nat))
    (hs : ∀ d ∈ specs, d.cell < width * height)
    (hm : ∀ m ∈ moves, m.fst < specs.length ∧ m.snd < width * height) :
    ((mkWorld width height collides specs).applyMoves moves).occInv ∧
    (∀ (w2 : World) (u c : Nat), w2.moveTo u c = w2.moveImmediate u c) := by
  have hempty_occ : (emptyWorld width height collides).occ.length = width * height := by
    simp [emptyWorld]
  have hmk := occWf_foldl_spawn specs (emptyWorld width height collides)
    (occInv_emptyWorld width height collides) (occBounded_emptyWorld width height collides)
    (fun d hd => by
      rw [hempty_occ]
      exact hs d hd)
  have hunits : (mkWorld width height collides specs).units.length = specs.length := by
    unfold mkWorld
    rw [hmk.2.2.2]
    simp [emptyWorld]
  have hocc : (mkWorld width height collides specs).occ.length = width * height := by
    unfold mkWorld
    rw [hmk.2.2.1, hempty_occ]
  refine ⟨?_, fun w2 u c => rfl⟩
  exact occInv_applyMoves moves (mkWorld width height collides specs) hmk.1 hmk.2.1
    (fun m hmem => ⟨by rw [hunits]; exact (hm m hmem).1, by rw [hocc]; exact (hm m hmem).2⟩)

/-- Witness for C5: two units spawned on a 2 × 2 grid, then three moves
including a self-move and a swap-like shuffle. -/
theorem C5_occupancy_witness :
    (∀ d ∈ c5Specs, d.cell < 2 * 2) ∧
    (∀ m ∈ ([(0, 1), (1, 2), (0, 0)] : List (Nat × Nat)),
      m.fst < c5Specs.length ∧ m.snd < 2 * 2) ∧
    (((mkWorld 2 2 (List.replicate 4 false) c5Specs).applyMoves
        [(0, 1), (1, 2), (0, 0)]).occInv ∧
      (∀ (w2 : World) (u c : Nat), w2.moveTo u c = w2.moveImmediate u c)) :=
  ⟨by decide, by decide,
    C5_occupancy_invariant 2 2 (List.replicate 4 false) c5Specs [(0, 1), (1, 2), (0, 0)]
      (by decide) (by decide)⟩

/-! ### Preservation lemmas for the AI phase and end-of-turn sequencing -/

theorem useAP_one_fields (s : Stats) :
    (s.useActionPoints 1).fst.maxActionPoints = s.maxActionPoints ∧
    (s.useActionPoints 1).fst.maxHitPoints = s.maxHitPoints ∧
    (s.useActionPoints 1).fst.hitPoints = s.hitPoints := by
  rw [useActionPoints_spec]
  by_cases hc : 0 ≤ s.actionPoints - 1
  · rw [if_pos hc]
    exact ⟨rfl, rfl, rfl⟩
  · rw [if_neg hc]
    exact ⟨rfl, rfl, rfl⟩

theorem useAP_one_dec (s : Stats) (h : 1 ≤ s.actionPoints) :
    (s.useActionPoints 1).fst.actionPoints = s.actionPoints - 1 := by
  rw [useActionPoints_spec, if_pos (by omega)]

theorem useAP_one_le (s : Stats) :
    (s.useActionPoints 1).fst.actionPoints ≤ s.actionPoints ∧
    (0 ≤ s.actionPoints → 0 ≤ (s.useActionPoints 1).fst.actionPoints) := by
  rw [useActionPoints_spec]
  by_cases hc : 0 ≤ s.actionPoints - 1
  · rw [if_pos hc]
    constructor
    · show s.actionPoints - 1 ≤ s.actionPoints
      omega
    · intro _
      show (0 : Int) ≤ s.actionPoints - 1
      omega
  · rw [if_neg hc]
    exact ⟨le_refl _, fun h => h⟩

theorem statePres_refl (w : World) : statePres w w :=
  ⟨rfl, rfl, rfl, rfl, rfl, rfl, fun _ => ⟨rfl, rfl⟩⟩

theorem statePres_trans {w1 w2 w3 : World} (h1 : statePres w1 w2) (h2 : statePres w2 w3) :
    statePres w1 w3 := by
  obtain ⟨a1, b1, c1, d1, e1, f1, g1⟩ := h1
  obtain ⟨a2, b2, c2, d2, e2, f2, g2⟩ := h2
  refine ⟨a2.trans a1, b2.trans b1, c2.trans c1, d2.trans d1, e2.trans e1, f2.trans f1, ?_⟩
  intro u
  exact ⟨(g2 u).left.trans (g1 u).left, (g2 u).right.trans (g1 u).right⟩

theorem statePres_setUnit (w : World) (u : Nat) (d : UnitData)
    (hchar : d.isCharacter = (w.unit u).isCharacter)
    (hmax : d.stats.maxActionPoints = (w.unit u).stats.maxActionPoints) :
    statePres w (w.setUnit u d) := by
  refine ⟨rfl, rfl, rfl, rfl, rfl, by simp, ?_⟩
  intro v
  rw [unit_setUnit]
  by_cases hv : v = u ∧ u < w.units.length
  · rw [if_pos hv, hv.left]
    exact ⟨hchar, hmax⟩
  · rw [if_neg hv]
    exact ⟨rfl, rfl⟩

theorem statePres_addUnit (w : World) (c u : Nat) : statePres w (w.addUnit c u) :=
  ⟨rfl, rfl, rfl, rfl, rfl, rfl, fun _ => ⟨rfl, rfl⟩⟩

theorem statePres_removeUnit (w : World) (c u : Nat) : statePres w (w.removeUnit c u) :=
  ⟨rfl, rfl, rfl, rfl, rfl, rfl, fun _ => ⟨rfl, rfl⟩⟩

theorem statePres_physMove (w : World) (u nc : Nat) :
    statePres w (w.physMoveImmediate u nc) := by
  rw [physMove_eq]
  refine statePres_trans ?_
    (statePres_addUnit ((w.removeUnit (w.unit u).cell u).setUnit u
      { w.unit u with cell := nc }) nc u)
  refine statePres_trans (statePres_removeUnit w (w.unit u).cell u) ?_
  exact statePres_setUnit (w.removeUnit (w.unit u).cell u) u
    { w.unit u with cell := nc } rfl rfl

theorem statePres_moveImmediate (w : World) (u nc : Nat) :
    statePres w (w.moveImmediate u nc) := by
  unfold World.moveImmediate
  by_cases h : (w.unit u).isCharacter = true
  · rw [if_pos h, charMove_eq]
    refine statePres_trans ?_ (statePres_physMove _ u nc)
    exact statePres_setUnit w u
      { w.unit u with stats := ((w.unit u).stats.useActionPoints 1).fst }
      rfl (useAP_one_fields (w.unit u).stats).left
  · rw [if_neg h]
    exact statePres_physMove w u nc

theorem statePres_attack (w : World) (a t : Nat) :
    statePres w (w.attack a t) := by
  unfold World.attack
  refine statePres_trans (statePres_setUnit w a
    { w.unit a with stats := ((w.unit a).stats.useActionPoints 1).fst }
    rfl (useAP_one_fields (w.unit a).stats).left) ?_
  apply statePres_setUnit
  · rfl
  · rw [useHitPoints_spec]

theorem statePres_newTurn (w : World) (u : Nat) :
    statePres w (w.newTurn u) := by
  unfold World.newTurn
  by_cases h : (w.unit u).isCharacter = true
  · rw [if_pos h]
    exact statePres_setUnit w u _ rfl rfl
  · rw [if_neg h]
    exact statePres_refl w

theorem cell_setUnit_stats (w : World) (u : Nat) (s : Stats) (v : Nat) :
    ((w.setUnit u { w.unit u with stats := s }).unit v).cell = (w.unit v).cell := by
  rw [unit_setUnit]
  by_cases hv : v = u ∧ u < w.units.length
  · rw [if_pos hv]
    show (w.unit u).cell = (w.unit v).cell
    rw [hv.left]
  · rw [if_neg hv]

theorem unitX_setUnit_stats (w : World) (u : Nat) (s : Stats) (v : Nat) :
    (w.setUnit u { w.unit u with stats := s }).unitX v = w.unitX v := by
  unfold World.unitX World.cellX
  rw [cell_setUnit_stats]
  rfl

theorem unitY_setUnit_stats (w : World) (u : Nat) (s : Stats) (v : Nat) :
    (w.setUnit u { w.unit u with stats := s }).unitY v = w.unitY v := by
  unfold World.unitY World.cellY
  rw [cell_setUnit_stats]
  rfl

theorem attack_eq (w : World) (a t : Nat) :
    w.attack a t =
      (w.setUnit a { w.unit a with stats := ((w.unit a).stats.useActionPoints 1).fst }).setUnit
        t
        { (w.setUnit a { w.unit a with
              stats := ((w.unit a).stats.useActionPoints 1).fst }).unit t with
          stats := (((w.setUnit a { w.unit a with
            stats := ((w.unit a).stats.useActionPoints 1).fst }).unit t).stats.useHitPoints
              1).fst } := rfl

theorem attack_ap_attacker (w : World) (a t : Nat) (ha : a < w.units.length) :
    ((w.attack a t).unit a).stats.actionPoints =
      ((w.unit a).stats.useActionPoints 1).fst.actionPoints := by
  rw [attack_eq, unit_setUnit]
  by_cases hat : a = t ∧ t < (w.setUnit a { w.unit a with
      stats := ((w.unit a).stats.useActionPoints 1).fst }).units.length
  · rw [if_pos hat]
    rw [useHitPoints_spec]
    show ((w.setUnit a { w.unit a with
      stats := ((w.unit a).stats.useActionPoints 1).fst }).unit t).stats.actionPoints = _
    rw [← hat.left, unit_setUnit, if_pos ⟨rfl, ha⟩]
  · rw [if_neg hat, unit_setUnit]
    by_cases hone : a = a ∧ a < w.units.length
    · rw [if_pos hone]
    · exact absurd ⟨rfl, ha⟩ hone

theorem attack_ap_of_ne (w : World) (a t v : Nat) (hv : v ≠ a) :
    ((w.attack a t).unit v).stats.actionPoints = (w.unit v).stats.actionPoints := by
  rw [attack_eq, unit_setUnit]
  by_cases hvt : v = t ∧ t < (w.setUnit a { w.unit a with
      stats := ((w.unit a).stats.useActionPoints 1).fst }).units.length
  · rw [if_pos hvt]
    rw [useHitPoints_spec]
    show ((w.setUnit a { w.unit a with
      stats := ((w.unit a).stats.useActionPoints 1).fst }).unit t).stats.actionPoints = _
    rw [← hvt.left, unit_setUnit, if_neg (fun hcon => hv hcon.left)]
  · rw [if_neg hvt, unit_setUnit, if_neg (fun hcon => hv hcon.left)]

theorem attack_cell (w : World) (a t v : Nat) :
    ((w.attack a t).unit v).cell = (w.unit v).cell := by
  rw [attack_eq]
  have h2 := cell_setUnit_stats (w.setUnit a { w.unit a with
    stats := ((w.unit a).stats.useActionPoints 1).fst }) t
    (((w.setUnit a { w.unit a with
      stats := ((w.unit a).stats.useActionPoints 1).fst }).unit t).stats.useHitPoints 1).fst v
  rw [h2, cell_setUnit_stats]

theorem unit_moveImmediate (w : World) (u0 nc : Nat) (hu0 : u0 < w.units.length) (v : Nat) :
    (w.moveImmediate u0 nc).unit v =
      if v = u0 then
        (if (w.unit u0).isCharacter = true
         then { w.unit u0 with cell := nc, stats := ((w.unit u0).stats.useActionPoints 1).fst }
         else { w.unit u0 with cell := nc })
      else w.unit v := by
  unfold World.moveImmediate
  by_cases hch : (w.unit u0).isCharacter = true
  · rw [if_pos hch, charMove_eq]
    have hlen : u0 < (w.setUnit u0 { w.unit u0 with
        stats := ((w.unit u0).stats.useActionPoints 1).fst }).units.length := by
      rw [setUnit_units_length]
      exact hu0
    rw [unit_physMove _ u0 nc hlen v]
    by_cases hv : v = u0
    · rw [if_pos hv, if_pos hv, if_pos hch, unit_setUnit, if_pos ⟨rfl, hu0⟩]
    · rw [if_neg hv, if_neg hv, unit_setUnit, if_neg (fun hcon => hv hcon.left)]
  · rw [if_neg hch]
    rw [unit_physMove w u0 nc hu0 v]
    by_cases hv : v = u0
    · rw [if_pos hv, if_pos hv, if_neg hch]
    · rw [if_neg hv, if_neg hv]

theorem closest_aux (w : World) (p : Int × Int) :
    ∀ (l : List Nat) (acc : Option Nat × Int),
      ((l.foldl (fun acc h =>
          if (w.unitX h - p.fst) ^ 2 + (w.unitY h - p.snd) ^ 2 < acc.snd
          then (some h, (w.unitX h - p.fst) ^ 2 + (w.unitY h - p.snd) ^ 2)
          else acc) acc).fst = acc.fst) ∨
      (∃ h2 ∈ l, (l.foldl (fun acc h =>
          if (w.unitX h - p.fst) ^ 2 + (w.unitY h - p.snd) ^ 2 < acc.snd
          then (some h, (w.unitX h - p.fst) ^ 2 + (w.unitY h - p.snd) ^ 2)
          else acc) acc).fst = some h2) := by
  intro l
  induction l with
  | nil =>
      intro acc
      exact Or.inl rfl
  | cons a l ih =>
      intro acc
      rw [List.foldl_cons]
      rcases ih (if (w.unitX a - p.fst) ^ 2 + (w.unitY a - p.snd) ^ 2 < acc.snd
          then (some a, (w.unitX a - p.fst) ^ 2 + (w.unitY a - p.snd) ^ 2)
          else acc) with heq | ⟨h2, hh2, heq⟩
      · by_cases hfa : (w.unitX a - p.fst) ^ 2 + (w.unitY a - p.snd) ^ 2 < acc.snd
        · right
          refine ⟨a, List.mem_cons_self a l, ?_⟩
          rw [heq, if_pos hfa]
        · left
          rw [heq, if_neg hfa]
      · right
        exact ⟨h2, List.mem_cons_of_mem a hh2, heq⟩

theorem closest_mem (w : World) (p : Int × Int) (humans : List Nat) (c : Nat)
    (h : closest w p humans = some c) : c ∈ humans := by
  unfold closest at h
  rcases closest_aux w p humans ((none : Option Nat), maxSafeInteger * maxSafeInteger)
    with heq | ⟨h2, hh2, heq⟩
  · rw [heq] at h
    exact absurd h (by simp)
  · rw [heq] at h
    rw [← Option.some_inj.mp h]
    exact hh2

theorem cellXY_bounds (w : World) (c : Nat) (hw : 0 < w.width) (hc : c < w.width * w.height) :
    0 ≤ w.cellX c ∧ w.cellX c < w.width ∧ 0 ≤ w.cellY c ∧ w.cellY c < w.height := by
  unfold World.cellX World.cellY
  refine ⟨Int.natCast_nonneg _, ?_, Int.natCast_nonneg _, ?_⟩
  · exact_mod_cast Nat.mod_lt c hw
  · exact_mod_cast Nat.div_lt_of_lt_mul hc

theorem isOnGrid_intro (w : World) (x y : Int) (hx : 0 ≤ x) (hx2 : x < w.width)
    (hy : 0 ≤ y) (hy2 : y < w.height) : w.isOnGrid x y = true := by
  unfold World.isOnGrid
  simp only [Bool.and_eq_true, decide_eq_true_eq]
  omega

theorem gridGet_lt (w : World) (x y : Int) (n : Nat) (h : w.gridGet x y = some n) :
    n < w.width * w.height := by
  simp only [World.gridGet] at h
  by_cases hc : 0 ≤ x + y * (w.width : Int) ∧
      x + y * (w.width : Int) < ((w.width * w.height : Nat) : Int)
  · rw [if_pos hc] at h
    obtain rfl := Option.some_inj.mp h
    omega
  · rw [if_neg hc] at h
    exact Option.noConfusion h

theorem stepCoord_bounds (a b limit : Int) (h1 : 0 ≤ a) (h2 : a < limit) (h3 : 0 ≤ b)
    (h4 : b < limit) :
    0 ≤ a + (if b > a then 1 else if b < a then -1 else 0) ∧
    a + (if b > a then 1 else if b < a then -1 else 0) < limit := by
  by_cases hgt : b > a
  · rw [if_pos hgt]
    omega
  · rw [if_neg hgt]
    by_cases hlt : b < a
    · rw [if_pos hlt]
      omega
    · rw [if_neg hlt]
      omega

theorem unit_default_of_ge (w : World) (u : Nat) (h : ¬ u < w.units.length) :
    w.unit u = default := by
  simp [World.unit, List.getD, List.getElem?_eq_none (Nat.le_of_not_lt h)]

theorem doAction_none_closest (w : World) (z : Nat) (nearby : List Nat)
    (h : closest w (w.unitX z, w.unitY z) nearby = none) :
    doAction w z nearby =
      some (w.setUnit z { w.unit z with stats := ((w.unit z).stats.useActionPoints 1).fst },
        AIEvent.wanderEv) := by
  unfold doAction
  rw [h]

theorem doAction_some_closest (w : World) (z : Nat) (nearby : List Nat) (c : Nat)
    (h : closest w (w.unitX z, w.unitY z) nearby = some c) :
    doAction w z nearby =
      if inMeleeRange w z c = true then some (performAttack w z c, AIEvent.attackEv)
      else (doMoveTowards w z c).map (fun w1 => (w1, AIEvent.moveEv)) := by
  unfold doAction
  rw [h]

/-- One successful AI action strictly decreases the acting zombie's
action points, keeps them nonnegative, keeps every unit on a real cell,
preserves the turn-state fields, and leaves the action points of every
other unit untouched. -/
theorem doAction_step (w : World) (z : Nat) (nearby : List Nat)
    (hw : 0 < w.width)
    (hcells : ∀ u : Nat, (w.unit u).cell < w.width * w.height)
    (hap : 1 ≤ (w.unit z).stats.actionPoints) :
    ∃ w1 e, doAction w z nearby = some (w1, e) ∧
      (w1.unit z).stats.actionPoints < (w.unit z).stats.actionPoints ∧
      0 ≤ (w1.unit z).stats.actionPoints ∧
      (∀ u : Nat, (w1.unit u).cell < w1.width * w1.height) ∧
      statePres w w1 ∧
      (∀ v, v ≠ z → (w1.unit v).stats.actionPoints = (w.unit v).stats.actionPoints) := by
  have hz : z < w.units.length := by
    by_contra hlen
    rw [unit_default_of_ge w z hlen] at hap
    exact absurd hap (by decide)
  cases hcl : closest w (w.unitX z, w.unitY z) nearby with
  | none =>
      rw [doAction_none_closest w z nearby hcl]
      refine ⟨w.setUnit z { w.unit z with stats := ((w.unit z).stats.useActionPoints 1).fst },
        AIEvent.wanderEv, rfl, ?_, ?_, ?_, ?_, ?_⟩
      · rw [unit_setUnit, if_pos ⟨rfl, hz⟩]
        show ((w.unit z).stats.useActionPoints 1).fst.actionPoints < _
        rw [useAP_one_dec _ hap]
        omega
      · rw [unit_setUnit, if_pos ⟨rfl, hz⟩]
        show (0 : Int) ≤ ((w.unit z).stats.useActionPoints 1).fst.actionPoints
        rw [useAP_one_dec _ hap]
        omega
      · intro u
        rw [cell_setUnit_stats]
        exact hcells u
      · exact statePres_setUnit w z _ rfl (useAP_one_fields (w.unit z).stats).left
      · intro v hv
        rw [unit_setUnit, if_neg (fun hcon => hv hcon.left)]
  | some c =>
      rw [doAction_some_closest w z nearby c hcl]
      by_cases hml : inMeleeRange w z c = true
      case pos =>
          rw [if_pos hml]
          refine ⟨performAttack w z c, AIEvent.attackEv, rfl, ?_, ?_, ?_, ?_, ?_⟩
          · show ((w.attack z c).unit z).stats.actionPoints < _
            rw [attack_ap_attacker w z c hz, useAP_one_dec _ hap]
            omega
          · show (0 : Int) ≤ ((w.attack z c).unit z).stats.actionPoints
            rw [attack_ap_attacker w z c hz, useAP_one_dec _ hap]
            omega
          · intro u
            show ((w.attack z c).unit u).cell < (w.attack z c).width * (w.attack z c).height
            have hpres := statePres_attack w z c
            rw [attack_cell, hpres.left, hpres.right.left]
            exact hcells u
          · exact statePres_attack w z c
          · intro v hv
            exact attack_ap_of_ne w z c v hv
      case neg =>
          rw [if_neg hml]
          have hW1ap : ((w.setUnit z { w.unit z with
              stats := ((w.unit z).stats.useActionPoints 1).fst }).unit z).stats.actionPoints =
              (w.unit z).stats.actionPoints - 1 := by
            rw [unit_setUnit, if_pos ⟨rfl, hz⟩]
            exact useAP_one_dec _ hap
          have hzb := cellXY_bounds w (w.unit z).cell hw (hcells z)
          have hcb := cellXY_bounds w (w.unit c).cell hw (hcells c)
          have hx := stepCoord_bounds (w.unitX z) (w.unitX c) (w.width : Int)
            hzb.left hzb.right.left hcb.left hcb.right.left
          have hy := stepCoord_bounds (w.unitY z) (w.unitY c) (w.height : Int)
            hzb.right.right.left hzb.right.right.right hcb.right.right.left
            hcb.right.right.right
          have hgrid := gridGet_isOnGrid w
            (w.unitX z + (if w.unitX c > w.unitX z then 1
              else if w.unitX c < w.unitX z then -1 else 0))
            (w.unitY z + (if w.unitY c > w.unitY z then 1
              else if w.unitY c < w.unitY z then -1 else 0))
            (isOnGrid_intro w _ _ hx.left hx.right hy.left hy.right)
          have htgt : ((w.unitX z + (if w.unitX c > w.unitX z then 1
              else if w.unitX c < w.unitX z then -1 else 0)) +
              (w.unitY z + (if w.unitY c > w.unitY z then 1
                else if w.unitY c < w.unitY z then -1 else 0)) * (w.width : Int)).toNat <
              w.width * w.height :=
            gridGet_lt w _ _ _ hgrid
          have hDMT : doMoveTowards w z c =
              some ((w.setUnit z { w.unit z with
                stats := ((w.unit z).stats.useActionPoints 1).fst }).moveImmediate z
                  ((w.unitX z + (if w.unitX c > w.unitX z then 1
                    else if w.unitX c < w.unitX z then -1 else 0)) +
                  (w.unitY z + (if w.unitY c > w.unitY z then 1
                    else if w.unitY c < w.unitY z then -1 else 0)) *
                      (w.width : Int)).toNat) := by
            unfold doMoveTowards dmtAux
            rw [unitX_setUnit_stats, unitX_setUnit_stats, unitY_setUnit_stats,
              unitY_setUnit_stats]
            show (match (w.setUnit z { w.unit z with
                stats := ((w.unit z).stats.useActionPoints 1).fst }).gridGet _ _ with
              | some cell => _
              | none => none) = _
            rw [show ∀ x y, (w.setUnit z { w.unit z with
                stats := ((w.unit z).stats.useActionPoints 1).fst }).gridGet x y =
                  w.gridGet x y from fun x y => rfl]
            rw [hgrid]
            rfl
          refine ⟨_, AIEvent.moveEv, by rw [hDMT]; rfl, ?_, ?_, ?_, ?_, ?_⟩
          · rw [unit_moveImmediate _ z _ (by rw [setUnit_units_length]; exact hz) z,
              if_pos rfl]
            by_cases hch : ((w.setUnit z { w.unit z with
                stats := ((w.unit z).stats.useActionPoints 1).fst }).unit z).isCharacter = true
            · rw [if_pos hch]
              have := (useAP_one_le ((w.setUnit z { w.unit z with
                stats := ((w.unit z).stats.useActionPoints 1).fst }).unit z).stats).left
              rw [hW1ap] at this
              show (((w.setUnit z { w.unit z with
                stats := ((w.unit z).stats.useActionPoints 1).fst
                  }).unit z).stats.useActionPoints 1).fst.actionPoints < _
              omega
            · rw [if_neg hch]
              show ((w.setUnit z { w.unit z with
                stats := ((w.unit z).stats.useActionPoints 1).fst
                  }).unit z).stats.actionPoints < _
              rw [hW1ap]
              omega
          · rw [unit_moveImmediate _ z _ (by rw [setUnit_units_length]; exact hz) z,
              if_pos rfl]
            by_cases hch : ((w.setUnit z { w.unit z with
                stats := ((w.unit z).stats.useActionPoints 1).fst }).unit z).isCharacter = true
            · rw [if_pos hch]
              have := (useAP_one_le ((w.setUnit z { w.unit z with
                stats := ((w.unit z).stats.useActionPoints 1).fst }).unit z).stats).right
              rw [hW1ap] at this
              show (0 : Int) ≤ (((w.setUnit z { w.unit z with
                stats := ((w.unit z).stats.useActionPoints 1).fst
                  }).unit z).stats.useActionPoints 1).fst.actionPoints
              omega
            · rw [if_neg hch]
              show (0 : Int) ≤ ((w.setUnit z { w.unit z with
                stats := ((w.unit z).stats.useActionPoints 1).fst }).unit z).stats.actionPoints
              rw [hW1ap]
              omega
          · intro u
            have hpres := statePres_trans
              (statePres_setUnit w z { w.unit z with
                stats := ((w.unit z).stats.useActionPoints 1).fst }
                rfl (useAP_one_fields (w.unit z).stats).left)
              (statePres_moveImmediate (w.setUnit z { w.unit z with
                stats := ((w.unit z).stats.useActionPoints 1).fst }) z
                ((w.unitX z + (if w.unitX c > w.unitX z then 1
                  else if w.unitX c < w.unitX z then -1 else 0)) +
                 (w.unitY z + (if w.unitY c > w.unitY z then 1
                  else if w.unitY c < w.unitY z then -1 else 0)) * (w.width : Int)).toNat)
            rw [hpres.left, hpres.right.left]
            rw [unit_moveImmediate _ z _ (by rw [setUnit_units_length]; exact hz) u]
            by_cases hu : u = z
            · rw [if_pos hu]
              by_cases hch : ((w.setUnit z { w.unit z with
                  stats := ((w.unit z).stats.useActionPoints 1).fst
                    }).unit z).isCharacter = true
              · rw [if_pos hch]
                exact htgt
              · rw [if_neg hch]
                exact htgt
            · rw [if_neg hu, cell_setUnit_stats]
              exact hcells u
          · exact statePres_trans
              (statePres_setUnit w z { w.unit z with
                stats := ((w.unit z).stats.useActionPoints 1).fst }
                rfl (useAP_one_fields (w.unit z).stats).left)
              (statePres_moveImmediate (w.setUnit z { w.unit z with
                stats := ((w.unit z).stats.useActionPoints 1).fst }) z
                ((w.unitX z + (if w.unitX c > w.unitX z then 1
                  else if w.unitX c < w.unitX z then -1 else 0)) +
                 (w.unitY z + (if w.unitY c > w.unitY z then 1
                  else if w.unitY c < w.unitY z then -1 else 0)) * (w.width : Int)).toNat)
          · intro v hv
            rw [unit_moveImmediate _ z _ (by rw [setUnit_units_length]; exact hz) v,
              if_neg hv, unit_setUnit, if_neg (fun hcon => hv hcon.left)]

theorem unit_physMove_other (w : World) (u0 nc v : Nat) (hv : v ≠ u0) :
    (w.physMoveImmediate u0 nc).unit v = w.unit v := by
  rw [physMove_eq, unit_addUnit, unit_setUnit, if_neg (fun hcon => hv hcon.left),
    unit_removeUnit]

theorem unit_moveImmediate_other (w : World) (u0 nc v : Nat) (hv : v ≠ u0) :
    (w.moveImmediate u0 nc).unit v = w.unit v := by
  unfold World.moveImmediate
  by_cases hch : (w.unit u0).isCharacter = true
  · rw [if_pos hch, charMove_eq, unit_physMove_other _ u0 nc v hv, unit_setUnit,
      if_neg (fun hcon => hv hcon.left)]
  · rw [if_neg hch, unit_physMove_other w u0 nc v hv]

/-- A successful AI action, regardless of any validity assumption,
preserves the turn-state fields and the action points of every unit
other than the acting one. -/
theorem doAction_pres (w : World) (z : Nat) (nearby : List Nat) (w1 : World) (e : AIEvent)
    (hsome : doAction w z nearby = some (w1, e)) :
    statePres w w1 ∧
    (∀ v, v ≠ z → (w1.unit v).stats.actionPoints = (w.unit v).stats.actionPoints) := by
  cases hcl : closest w (w.unitX z, w.unitY z) nearby with
  | none =>
      rw [doAction_none_closest w z nearby hcl] at hsome
      obtain ⟨h1, -⟩ := Prod.mk.inj (Option.some_inj.mp hsome)
      rw [← h1]
      constructor
      · exact statePres_setUnit w z _ rfl (useAP_one_fields (w.unit z).stats).left
      · intro v hv
        rw [unit_setUnit, if_neg (fun hcon => hv hcon.left)]
  | some c =>
      rw [doAction_some_closest w z nearby c hcl] at hsome
      by_cases hml : inMeleeRange w z c = true
      case pos =>
          rw [if_pos hml] at hsome
          obtain ⟨h1, -⟩ := Prod.mk.inj (Option.some_inj.mp hsome)
          rw [← h1]
          exact ⟨statePres_attack w z c, fun v hv => attack_ap_of_ne w z c v hv⟩
      case neg =>
          rw [if_neg hml] at hsome
          cases hdm : doMoveTowards w z c with
          | none =>
              rw [hdm] at hsome
              exact absurd hsome (by simp)
          | some wm =>
              rw [hdm] at hsome
              obtain ⟨h1, -⟩ := Prod.mk.inj (Option.some_inj.mp hsome)
              rw [← h1]
              unfold doMoveTowards dmtAux at hdm
              cases hg : (w.setUnit z { w.unit z with
                  stats := ((w.unit z).stats.useActionPoints 1).fst }).gridGet
                  ((w.setUnit z { w.unit z with
                    stats := ((w.unit z).stats.useActionPoints 1).fst }).unitX z +
                    (if (w.setUnit z { w.unit z with
                        stats := ((w.unit z).stats.useActionPoints 1).fst }).unitX c >
                        (w.setUnit z { w.unit z with
                          stats := ((w.unit z).stats.useActionPoints 1).fst }).unitX z then 1
                      else if (w.setUnit z { w.unit z with
                          stats := ((w.unit z).stats.useActionPoints 1).fst }).unitX c <
                          (w.setUnit z { w.unit z with
                            stats := ((w.unit z).stats.useActionPoints 1).fst }).unitX z
                        then -1 else 0))
                  ((w.setUnit z { w.unit z with
                    stats := ((w.unit z).stats.useActionPoints 1).fst }).unitY z +
                    (if (w.setUnit z { w.unit z with
                        stats := ((w.unit z).stats.useActionPoints 1).fst }).unitY c >
                        (w.setUnit z { w.unit z with
                          stats := ((w.unit z).stats.useActionPoints 1).fst }).unitY z then 1
                      else if (w.setUnit z { w.unit z with
                          stats := ((w.unit z).stats.useActionPoints 1).fst }).unitY c <
                          (w.setUnit z { w.unit z with
                            stats := ((w.unit z).stats.useActionPoints 1).fst }).unitY z
                        then -1 else 0)) with
              | none =>
                  rw [hg] at hdm
                  exact absurd hdm (by exact Option.noConfusion)
              | some cell =>
                  rw [hg] at hdm
                  have h2 : (w.setUnit z { w.unit z with
                      stats := ((w.unit z).stats.useActionPoints 1).fst }).moveImmediate z cell
                      = wm := Option.some_inj.mp hdm
                  rw [← h2]
                  constructor
                  · exact statePres_trans
                      (statePres_setUnit w z { w.unit z with
                        stats := ((w.unit z).stats.useActionPoints 1).fst }
                        rfl (useAP_one_fields (w.unit z).stats).left)
                      (statePres_moveImmediate _ z cell)
                  · intro v hv
                    rw [unit_moveImmediate_other _ z cell v hv, unit_setUnit,
                      if_neg (fun hcon => hv hcon.left)]

/-- The while loop of doActions, run with the action-point budget as
fuel, terminates with the action points of the acting zombie exhausted
when they start nonnegative, preserving the turn-state fields, the
validity of every cell reference and the action points of every other
unit. -/
theorem doActionsAux_exhausts (z : Nat) (nearby : List Nat) :
    ∀ (fuel : Nat) (w : World), 0 < w.width →
      (∀ u : Nat, (w.unit u).cell < w.width * w.height) →
      0 ≤ (w.unit z).stats.actionPoints →
      (w.unit z).stats.actionPoints.toNat ≤ fuel →
      ∃ w2 evs, doActionsAux fuel w z nearby = some (w2, evs) ∧
        (w2.unit z).stats.actionPoints = 0 ∧ statePres w w2 ∧
        (∀ u : Nat, (w2.unit u).cell < w2.width * w2.height) ∧
        (∀ v, v ≠ z → (w2.unit v).stats.actionPoints = (w.unit v).stats.actionPoints) := by
  intro fuel
  induction fuel with
  | zero =>
      intro w hw hcells hap hfuel
      have hz0 : (w.unit z).stats.actionPoints = 0 := by omega
      refine ⟨w, [], ?_, hz0, statePres_refl w, hcells, fun v _ => rfl⟩
      unfold doActionsAux
      rw [if_pos hz0]
  | succ f ih =>
      intro w hw hcells hap hfuel
      by_cases hz0 : (w.unit z).stats.actionPoints = 0
      · refine ⟨w, [], ?_, hz0, statePres_refl w, hcells, fun v _ => rfl⟩
        unfold doActionsAux
        rw [if_pos hz0]
      · have hap1 : 1 ≤ (w.unit z).stats.actionPoints := by omega
        obtain ⟨w1, e, hsome, hdec, hnn, hcells1, hpres1, hothers1⟩ :=
          doAction_step w z nearby hw hcells hap1
        have hw1 : 0 < w1.width := by
          rw [hpres1.left]
          exact hw
        have hfuel1 : (w1.unit z).stats.actionPoints.toNat ≤ f := by omega
        obtain ⟨w2, evs, hrec, hz2, hpres2, hcells2, hothers2⟩ := ih w1 hw1 hcells1 hnn hfuel1
        refine ⟨w2, e :: evs, ?_, hz2, statePres_trans hpres1 hpres2, hcells2, ?_⟩
        · unfold doActionsAux
          rw [if_neg hz0, hsome]
          show (doActionsAux f w1 z nearby).map (fun q => (q.fst, e :: q.snd)) = _
          rw [hrec]
          rfl
        · intro v hv
          rw [hothers2 v hv, hothers1 v hv]

/-- Success-only preservation through the fuelled loop. -/
theorem doActionsAux_pres (z : Nat) (nearby : List Nat) :
    ∀ (fuel : Nat) (w w2 : World) (evs : List AIEvent),
      doActionsAux fuel w z nearby = some (w2, evs) →
      statePres w w2 ∧
      (∀ v, v ≠ z → (w2.unit v).stats.actionPoints = (w.unit v).stats.actionPoints) := by
  intro fuel
  induction fuel with
  | zero =>
      intro w w2 evs h
      unfold doActionsAux at h
      by_cases hz0 : (w.unit z).stats.actionPoints = 0
      · rw [if_pos hz0] at h
        obtain ⟨h1, -⟩ := Prod.mk.inj (Option.some_inj.mp h)
        rw [← h1]
        exact ⟨statePres_refl w, fun v _ => rfl⟩
      · rw [if_neg hz0] at h
        exact absurd h (by simp)
  | succ f ih =>
      intro w w2 evs h
      unfold doActionsAux at h
      by_cases hz0 : (w.unit z).stats.actionPoints = 0
      · rw [if_pos hz0] at h
        obtain ⟨h1, -⟩ := Prod.mk.inj (Option.some_inj.mp h)
        rw [← h1]
        exact ⟨statePres_refl w, fun v _ => rfl⟩
      · rw [if_neg hz0] at h
        cases hda : doAction w z nearby with
        | none =>
            rw [hda] at h
            exact absurd h (by simp)
        | some p =>
            rw [hda] at h
            have h2 : (doActionsAux f p.fst z nearby).map (fun q => (q.fst, p.snd :: q.snd))
                = some (w2, evs) := h
            cases hrec : doActionsAux f p.fst z nearby with
            | none =>
                rw [hrec] at h2
                exact absurd h2 (by simp)
            | some q =>
                rw [hrec] at h2
                obtain ⟨h3, -⟩ := Prod.mk.inj (Option.some_inj.mp h2)
                obtain ⟨hpres1, hothers1⟩ := doAction_pres w z nearby p.fst p.snd hda
                obtain ⟨hpres2, hothers2⟩ := ih p.fst q.fst q.snd hrec
                rw [← h3]
                refine ⟨statePres_trans hpres1 hpres2, ?_⟩
                intro v hv
                rw [hothers2 v hv, hothers1 v hv]

theorem restoreFull_pres_fields (s : Stats) :
    s.restoreFull.maxActionPoints = s.maxActionPoints ∧
    s.restoreFull.hitPoints = s.hitPoints := ⟨rfl, rfl⟩

/-- A successful per-zombie AI turn preserves the turn-state fields and
the action points of every other unit. -/
theorem aiDoZombie_pres (w : World) (z : Nat) (w1 : World) (h : aiDoZombie w z = some w1) :
    statePres w w1 ∧
    (∀ v, v ≠ z → (w1.unit v).stats.actionPoints = (w.unit v).stats.actionPoints) := by
  unfold aiDoZombie aiZombieBody at h
  cases hcn : collectNearby (w.setUnit z { w.unit z with
      stats := (w.unit z).stats.restoreFull }) z with
  | none =>
      rw [hcn] at h
      exact absurd h (by simp)
  | some nearby =>
      rw [hcn] at h
      have h2 : (doActions (w.setUnit z { w.unit z with
          stats := (w.unit z).stats.restoreFull }) z nearby).map Prod.fst = some w1 := h
      cases hda : doActions (w.setUnit z { w.unit z with
          stats := (w.unit z).stats.restoreFull }) z nearby with
      | none =>
          rw [hda] at h2
          exact absurd h2 (by simp)
      | some p =>
          rw [hda] at h2
          have h3 : p.fst = w1 := Option.some_inj.mp h2
          unfold doActions at hda
          obtain ⟨hpres2, hothers2⟩ := doActionsAux_pres z nearby _ _ p.fst p.snd hda
          have hpres1 : statePres w (w.setUnit z { w.unit z with
              stats := (w.unit z).stats.restoreFull }) :=
            statePres_setUnit w z _ rfl rfl
          rw [← h3]
          refine ⟨statePres_trans hpres1 hpres2, ?_⟩
          intro v hv
          rw [hothers2 v hv, unit_setUnit, if_neg (fun hcon => hv hcon.left)]

/-- A successful per-zombie AI turn exhausts the action points of that
zombie (under valid cell references and a nonnegative maximum). -/
theorem aiDoZombie_zero (w : World) (z : Nat) (w1 : World)
    (hw : 0 < w.width) (hcells : ∀ u : Nat, (w.unit u).cell < w.width * w.height)
    (hmax : 0 ≤ (w.unit z).stats.maxActionPoints)
    (h : aiDoZombie w z = some w1) :
    (w1.unit z).stats.actionPoints = 0 ∧
    0 < w1.width ∧ (∀ u : Nat, (w1.unit u).cell < w1.width * w1.height) := by
  unfold aiDoZombie aiZombieBody at h
  cases hcn : collectNearby (w.setUnit z { w.unit z with
      stats := (w.unit z).stats.restoreFull }) z with
  | none =>
      rw [hcn] at h
      exact absurd h (by simp)
  | some nearby =>
      rw [hcn] at h
      have h2 : (doActions (w.setUnit z { w.unit z with
          stats := (w.unit z).stats.restoreFull }) z nearby).map Prod.fst = some w1 := h
      have hnn : 0 ≤ ((w.setUnit z { w.unit z with
          stats := (w.unit z).stats.restoreFull }).unit z).stats.actionPoints := by
        rw [unit_setUnit]
        by_cases hzl : z = z ∧ z < w.units.length
        · rw [if_pos hzl]
          exact hmax
        · rw [if_neg hzl]
          have hge : ¬ z < w.units.length := fun hlt => hzl ⟨rfl, hlt⟩
          rw [unit_default_of_ge w z hge]
          decide
      have hcells0 : ∀ u : Nat, ((w.setUnit z { w.unit z with
          stats := (w.unit z).stats.restoreFull }).unit u).cell <
          (w.setUnit z { w.unit z with stats := (w.unit z).stats.restoreFull }).width *
          (w.setUnit z { w.unit z with stats := (w.unit z).stats.restoreFull }).height := by
        intro u
        rw [cell_setUnit_stats]
        exact hcells u
      obtain ⟨w2, evs, hex, hz2, hpres2, hcells2, -⟩ := doActionsAux_exhausts z nearby
        ((w.setUnit z { w.unit z with
          stats := (w.unit z).stats.restoreFull }).unit z).stats.actionPoints.toNat
        (w.setUnit z { w.unit z with stats := (w.unit z).stats.restoreFull })
        hw hcells0 hnn (le_refl _)
      have hda : doActions (w.setUnit z { w.unit z with
          stats := (w.unit z).stats.restoreFull }) z nearby = some (w2, evs) := hex
      rw [hda] at h2
      have h3 : w2 = w1 := Option.some_inj.mp h2
      rw [← h3]
      refine ⟨hz2, ?_, hcells2⟩
      rw [hpres2.left]
      exact hw

/-- A successful full AI turn preserves the turn-state fields. -/
theorem aiDoTurn_fold_pres : ∀ (L : List Nat) (w w1 : World),
    List.foldlM (fun acc z => aiDoZombie acc z) w L = some w1 → statePres w w1 := by
  intro L
  induction L with
  | nil =>
      intro w w1 h
      have h2 : w = w1 := Option.some_inj.mp h
      rw [← h2]
      exact statePres_refl w
  | cons z L ih =>
      intro w w1 h
      have h2 : (aiDoZombie w z).bind
          (fun acc => List.foldlM (fun acc z => aiDoZombie acc z) acc L) = some w1 := h
      cases hz : aiDoZombie w z with
      | none =>
          rw [hz] at h2
          exact absurd h2 (by simp)
      | some wz =>
          rw [hz] at h2
          exact statePres_trans (aiDoZombie_pres w z wz hz).left (ih wz w1 h2)

/-- After a successful full AI turn, every zombie of the roster has 0
action points left. -/
theorem aiDoTurn_fold_zero : ∀ (L : List Nat) (w w1 : World),
    List.foldlM (fun acc z => aiDoZombie acc z) w L = some w1 →
    0 < w.width → (∀ u : Nat, (w.unit u).cell < w.width * w.height) →
    (∀ z2 ∈ L, 0 ≤ (w.unit z2).stats.maxActionPoints) →
    ∀ v : Nat, ((w.unit v).stats.actionPoints = 0 ∨ v ∈ L) →
      (w1.unit v).stats.actionPoints = 0 := by
  intro L
  induction L with
  | nil =>
      intro w w1 h hw hcells hmax v hv
      have h2 : w = w1 := Option.some_inj.mp h
      rw [← h2]
      rcases hv with hv0 | hv0
      · exact hv0
      · exact absurd hv0 (List.not_mem_nil v)
  | cons z L ih =>
      intro w w1 h hw hcells hmax v hv
      have h2 : (aiDoZombie w z).bind
          (fun acc => List.foldlM (fun acc z => aiDoZombie acc z) acc L) = some w1 := h
      cases hz : aiDoZombie w z with
      | none =>
          rw [hz] at h2
          exact absurd h2 (by simp)
      | some wz =>
          rw [hz] at h2
          obtain ⟨hzero, hwz, hcellsz⟩ := aiDoZombie_zero w z wz hw hcells
            (hmax z (List.mem_cons_self z L)) hz
          obtain ⟨hpresz, hothersz⟩ := aiDoZombie_pres w z wz hz
          have hmaxz : ∀ z2 ∈ L, 0 ≤ (wz.unit z2).stats.maxActionPoints := by
            intro z2 hz2
            rw [(hpresz.right.right.right.right.right.right z2).right]
            exact hmax z2 (List.mem_cons_of_mem z hz2)
          apply ih wz w1 h2 hwz hcellsz hmaxz v
          by_cases hvz : v = z
          · left
            rw [hvz]
            exact hzero
          · rcases hv with hv0 | hv0
            · left
              rw [hothersz v hvz]
              exact hv0
            · rcases List.mem_cons.mp hv0 with hveq | hvL
              · exact absurd hveq hvz
              · exact Or.inr hvL

theorem unit_newTurn_self (w : World) (u : Nat) (hu : u < w.units.length)
    (hc : (w.unit u).isCharacter = true) :
    ((w.newTurn u).unit u).stats.actionPoints = ((w.newTurn u).unit u).stats.maxActionPoints := by
  unfold World.newTurn
  rw [if_pos hc, unit_setUnit, if_pos ⟨rfl, hu⟩]
  rfl

theorem newTurn_keeps (w : World) (u0 v : Nat)
    (h : (w.unit v).stats.actionPoints = (w.unit v).stats.maxActionPoints) :
    ((w.newTurn u0).unit v).stats.actionPoints = ((w.newTurn u0).unit v).stats.maxActionPoints := by
  unfold World.newTurn
  by_cases hch : (w.unit u0).isCharacter = true
  · rw [if_pos hch, unit_setUnit]
    by_cases hv : v = u0 ∧ u0 < w.units.length
    · rw [if_pos hv]
      rfl
    · rw [if_neg hv]
      exact h
  · rw [if_neg hch]
    exact h

theorem newTurn_hp (w : World) (u0 v : Nat) :
    ((w.newTurn u0).unit v).stats.hitPoints = (w.unit v).stats.hitPoints := by
  unfold World.newTurn
  by_cases hch : (w.unit u0).isCharacter = true
  · rw [if_pos hch, unit_setUnit]
    by_cases hv : v = u0 ∧ u0 < w.units.length
    · rw [if_pos hv]
      show (w.unit u0).stats.hitPoints = _
      rw [hv.left]
    · rw [if_neg hv]
  · rw [if_neg hch]

theorem foldl_newTurn_keeps (L : List Nat) : ∀ (w : World) (v : Nat),
    (w.unit v).stats.actionPoints = (w.unit v).stats.maxActionPoints →
    ((L.foldl (fun acc u => acc.newTurn u) w).unit v).stats.actionPoints =
      ((L.foldl (fun acc u => acc.newTurn u) w).unit v).stats.maxActionPoints := by
  induction L with
  | nil =>
      intro w v h
      exact h
  | cons a L ih =>
      intro w v h
      rw [List.foldl_cons]
      exact ih (w.newTurn a) v (newTurn_keeps w a v h)

theorem foldl_newTurn_hp (L : List Nat) : ∀ (w : World) (v : Nat),
    ((L.foldl (fun acc u => acc.newTurn u) w).unit v).stats.hitPoints =
      (w.unit v).stats.hitPoints := by
  induction L with
  | nil =>
      intro w v
      rfl
  | cons a L ih =>
      intro w v
      rw [List.foldl_cons, ih (w.newTurn a) v, newTurn_hp]

theorem foldl_newTurn_statePres (L : List Nat) : ∀ (w : World),
    statePres w (L.foldl (fun acc u => acc.newTurn u) w) := by
  induction L with
  | nil =>
      intro w
      exact statePres_refl w
  | cons a L ih =>
      intro w
      rw [List.foldl_cons]
      exact statePres_trans (statePres_newTurn w a) (ih (w.newTurn a))

theorem foldl_newTurn_sets (L : List Nat) : ∀ (w : World),
    (∀ u ∈ L, u < w.units.length ∧ (w.unit u).isCharacter = true) →
    ∀ u ∈ L, ((L.foldl (fun acc u => acc.newTurn u) w).unit u).stats.actionPoints =
      ((L.foldl (fun acc u => acc.newTurn u) w).unit u).stats.maxActionPoints := by
  induction L with
  | nil =>
      intro w _ u hu
      exact absurd hu (List.not_mem_nil u)
  | cons a L ih =>
      intro w hL u hu
      rw [List.foldl_cons]
      rcases List.mem_cons.mp hu with rfl | hu2
      · exact foldl_newTurn_keeps L (w.newTurn u) u
          (unit_newTurn_self w u (hL u (List.mem_cons_self u L)).left
            (hL u (List.mem_cons_self u L)).right)
      · apply ih (w.newTurn a) ?_ u hu2
        intro u2 hu2m
        have hpres := statePres_newTurn w a
        constructor
        · rw [hpres.right.right.right.right.right.left]
          exact (hL u2 (List.mem_cons_of_mem a hu2m)).left
        · rw [(hpres.right.right.right.right.right.right u2).left]
          exact (hL u2 (List.mem_cons_of_mem a hu2m)).right

theorem endTurn_some (w w1 : World) (h : aiDoTurn w = some w1) :
    w.endTurn = some ((w1.newTurnAll).selectPlayer (w1.newTurnAll).selectedPlayerId) := by
  unfold World.endTurn
  rw [h]
  rfl

/-- C8: when the AI turn completes (returning w1), endTurn returns a
state in which the selected player id is unchanged, every Character of
both rosters has action points restored to the maximum, the cached
action list is the freshly recomputed action set of the selected
player, and hit points are exactly those the AI phase produced — the AI
ran first and newTurn restored only action points. -/
theorem C8_endTurn_sequence (w w1 : World) (hai : aiDoTurn w = some w1)
    (hros : ∀ u ∈ w.players ++ w.zombies,
      u < w.units.length ∧ (w.unit u).isCharacter = true) :
    ∃ wf, w.endTurn = some wf ∧
      wf.selectedPlayerId = w.selectedPlayerId ∧
      (∀ u ∈ w.players ++ w.zombies,
        (wf.unit u).stats.actionPoints = (wf.unit u).stats.maxActionPoints) ∧
      wf.playerActions = wf.getUnitActions (wf.players.getD wf.selectedPlayerId 0) ∧
      (∀ v : Nat, (wf.unit v).stats.hitPoints = (w1.unit v).stats.hitPoints) := by
  have hai2 : List.foldlM (fun acc z => aiDoZombie acc z) w w.zombies = some w1 := hai
  have hpres := aiDoTurn_fold_pres w.zombies w w1 hai2
  have hroster : w1.players ++ w1.zombies = w.players ++ w.zombies := by
    rw [hpres.right.right.right.left, hpres.right.right.right.right.left]
  have hNTpres : statePres w1 w1.newTurnAll := by
    unfold World.newTurnAll
    exact foldl_newTurn_statePres (w1.players ++ w1.zombies) w1
  refine ⟨(w1.newTurnAll).selectPlayer (w1.newTurnAll).selectedPlayerId,
    endTurn_some w w1 hai, ?_, ?_, ?_, ?_⟩
  · show (w1.newTurnAll).selectedPlayerId = w.selectedPlayerId
    rw [hNTpres.right.right.left, hpres.right.right.left]
  · intro u hu
    show ((w1.newTurnAll).unit u).stats.actionPoints =
      ((w1.newTurnAll).unit u).stats.maxActionPoints
    unfold World.newTurnAll
    apply foldl_newTurn_sets (w1.players ++ w1.zombies) w1 ?_ u (by rw [hroster]; exact hu)
    intro u2 hu2
    have hu2w : u2 ∈ w.players ++ w.zombies := by
      rw [← hroster]
      exact hu2
    constructor
    · rw [hpres.right.right.right.right.right.left]
      exact (hros u2 hu2w).left
    · rw [(hpres.right.right.right.right.right.right u2).left]
      exact (hros u2 hu2w).right
  · rfl
  · intro v
    show ((w1.newTurnAll).unit v).stats.hitPoints = (w1.unit v).stats.hitPoints
    unfold World.newTurnAll
    exact foldl_newTurn_hp (w1.players ++ w1.zombies) w1 v

/-- Witness for C8 on a 3 × 3 world with one friendly character and no
hostiles (the AI turn is trivially complete). -/
theorem C8_endTurn_witness :
    aiDoTurn c8World = some c8World ∧
    (∀ u ∈ c8World.players ++ c8World.zombies,
      u < c8World.units.length ∧ (c8World.unit u).isCharacter = true) ∧
    (∃ wf, c8World.endTurn = some wf ∧
      wf.selectedPlayerId = c8World.selectedPlayerId ∧
      (∀ u ∈ c8World.players ++ c8World.zombies,
        (wf.unit u).stats.actionPoints = (wf.unit u).stats.maxActionPoints) ∧
      wf.playerActions = wf.getUnitActions (wf.players.getD wf.selectedPlayerId 0) ∧
      (∀ v : Nat, (wf.unit v).stats.hitPoints = (c8World.unit v).stats.hitPoints)) :=
  ⟨rfl, by decide, C8_endTurn_sequence c8World c8World rfl (by decide)⟩

/-- C9: on a nonempty grid with every unit on a real cell, (a) one AI
action taken with action points remaining strictly decreases the acting
zombie action points keeping them nonnegative — attack, move-toward and
wander all spend; (b) the action loop of doActions terminates with the
acting zombie at 0 action points whenever it starts nonnegative; and
(c) a completed doTurn leaves every hostile of the roster with 0 action
points. -/
theorem C9_ai_termination (w : World) (z : Nat) (nearby : List Nat)
    (hw : 0 < w.width) (hh : 0 < w.height)
    (hcells : ∀ d ∈ w.units, d.cell < w.width * w.height) :
    (1 ≤ (w.unit z).stats.actionPoints →
      ∃ w1 e, doAction w z nearby = some (w1, e) ∧
        (w1.unit z).stats.actionPoints < (w.unit z).stats.actionPoints ∧
        0 ≤ (w1.unit z).stats.actionPoints) ∧
    (0 ≤ (w.unit z).stats.actionPoints →
      ∃ w2 evs, doActions w z nearby = some (w2, evs) ∧
        (w2.unit z).stats.actionPoints = 0) ∧
    (∀ w1 : World, aiDoTurn w = some w1 →
      (∀ z2 ∈ w.zombies, 0 ≤ (w.unit z2).stats.maxActionPoints) →
      ∀ z2 ∈ w.zombies, (w1.unit z2).stats.actionPoints = 0) := by
  have hcells2 : ∀ u : Nat, (w.unit u).cell < w.width * w.height := by
    intro u
    by_cases hu : u < w.units.length
    · have he : w.unit u = w.units[u] := by
        simp [World.unit, List.getD, List.getElem?_eq_getElem hu]
      rw [he]
      exact hcells _ (List.getElem_mem hu)
    · rw [unit_default_of_ge w u hu]
      exact Nat.mul_pos hw hh
  refine ⟨?_, ?_, ?_⟩
  · intro hap
    obtain ⟨w1, e, hsome, hdec, hnn, -, -, -⟩ := doAction_step w z nearby hw hcells2 hap
    exact ⟨w1, e, hsome, hdec, hnn⟩
  · intro hap
    obtain ⟨w2, evs, hex, hz2, -, -, -⟩ := doActionsAux_exhausts z nearby
      (w.unit z).stats.actionPoints.toNat w hw hcells2 hap (le_refl _)
    exact ⟨w2, evs, hex, hz2⟩
  · intro w1 hai hmax z2 hz2
    exact aiDoTurn_fold_zero w.zombies w w1 hai hw hcells2 hmax z2 (Or.inr hz2)

/-- Witness for C9 on the 8 × 1 corridor world with the hostile unit 0
and the friendly unit 1 visible. -/
theorem C9_ai_termination_witness :
    0 < c3World.width ∧ 0 < c3World.height ∧
    (∀ d ∈ c3World.units, d.cell < c3World.width * c3World.height) ∧
    ((1 ≤ (c3World.unit 0).stats.actionPoints →
      ∃ w1 e, doAction c3World 0 [1] = some (w1, e) ∧
        (w1.unit 0).stats.actionPoints < (c3World.unit 0).stats.actionPoints ∧
        0 ≤ (w1.unit 0).stats.actionPoints) ∧
    (0 ≤ (c3World.unit 0).stats.actionPoints →
      ∃ w2 evs, doActions c3World 0 [1] = some (w2, evs) ∧
        (w2.unit 0).stats.actionPoints = 0) ∧
    (∀ w1 : World, aiDoTurn c3World = some w1 →
      (∀ z2 ∈ c3World.zombies, 0 ≤ (c3World.unit z2).stats.maxActionPoints) →
      ∀ z2 ∈ c3World.zombies, (w1.unit z2).stats.actionPoints = 0)) :=
  ⟨by decide, by decide, by decide,
    C9_ai_termination c3World 0 [1] (by decide) (by decide) (by decide)⟩


end Ludum
